import Mathlib

/-!
Verification of the pg-storage page codec (crate pg-page).

Shallow embedding conventions:
* bytes are `Nat` values (< 256 whenever produced by an encoder);
* Rust machine integers are `Nat` with explicit wrap-around where the
  source performs `u16`/`usize` arithmetic (release-profile wrapping
  semantics: `wrap16` / `wrap64` below);
* fallible slice operations return `Except ByteEncodeError`;
* operations whose Rust source can panic (a `copy_from_slice` with a
  length mismatch, direct slice indexing) return `Option` with `none`
  standing for the panic; the composite result type is
  `PRes t = Option (Except ByteEncodeError t)`.
-/

namespace PgStorage

/-- Error type of `fs_format.rs` / `util.rs` (`ByteEncodeError`); payload-free
variants stand for the wrapped foreign errors. -/
inductive ByteEncodeError where
  | notEnoughBytes (expected actual : Nat)
  | tooManyBytes (expected actual : Nat)
  | invalidSize (expected actual : Nat)
  | ioError
  | utf8Error
  deriving DecidableEq, Repr

/-- Crate-level error enum (`lib.rs::Error`), restricted to the variants the
lazy tuple iterator can produce. -/
inductive PgError where
  | io
  | byteEncoding (e : ByteEncodeError)
  deriving DecidableEq, Repr

/-- Result of an operation that may panic (`none`) or fail with an error. -/
abbrev PRes (t : Type) := Option (Except ByteEncodeError t)

/-- Sequencing for `PRes`: propagate panic, then propagate error. -/
def bindP {a b : Type} (x : PRes a) (f : a → PRes b) : PRes b :=
  match x with
  | none => none
  | some (.error e) => some (.error e)
  | some (.ok v) => f v

/-- Lift an infallible, panic-free value into `PRes`. -/
def pureP {a : Type} (v : a) : PRes a := some (.ok v)

/-- Lift an `Except` computation (no panic possible) into `PRes`. -/
def liftE {a : Type} (x : Except ByteEncodeError a) : PRes a := some x

/-- Lift a panic-possible computation (`none` = panic) into `PRes`. -/
def liftO {a : Type} (x : Option a) : PRes a :=
  match x with
  | none => none
  | some v => some (.ok v)

/-- Wrapping 16-bit interpretation (`u16` arithmetic result). -/
def wrap16 (x : Nat) : Nat := x % 65536

/-- Wrapping `u16` subtraction. -/
def sub16 (a b : Nat) : Nat := (a + 65536 - b % 65536) % 65536

/-- Wrapping `u16` addition. -/
def add16 (a b : Nat) : Nat := (a + b) % 65536

/-- Wrapping 64-bit interpretation (`u64`/`usize` arithmetic result). -/
def wrap64 (x : Nat) : Nat := x % 18446744073709551616

/-- Wrapping `usize` subtraction. -/
def sub64 (a b : Nat) : Nat :=
  (a + 18446744073709551616 - b % 18446744073709551616) % 18446744073709551616

/-- Wrapping `usize` addition. -/
def add64 (a b : Nat) : Nat := (a + b) % 18446744073709551616

/-- Little-endian encoding of `x` into `w` bytes (`to_le_bytes`). -/
def toLE : Nat → Nat → List Nat
  | 0, _ => []
  | w + 1, x => x % 256 :: toLE w (x / 256)

/-- Little-endian value of a byte list (`from_le_bytes` on genuine bytes). -/
def fromLE : List Nat → Nat
  | [] => 0
  | b :: bs => b + 256 * fromLE bs

/-- `GetByteSliceExt::get_byte_slice`: checked subslice `[start, end)`;
`slice.get(start..end)` is `none` when `start > end` or `end > len`, reported
as `NotEnoughBytes { expected: end, actual: len }`. -/
def getByteSlice (l : List Nat) (s e : Nat) : Except ByteEncodeError (List Nat) :=
  if s ≤ e ∧ e ≤ l.length then .ok ((l.drop s).take (e - s))
  else .error (.notEnoughBytes e l.length)

/-- Direct slice indexing `&bytes[s..e]` — panics (`none`) when out of range. -/
def idxSlice (l : List Nat) (s e : Nat) : Option (List Nat) :=
  if s ≤ e ∧ e ≤ l.length then some ((l.drop s).take (e - s)) else none

/-- `read_u8`: `copy_from_slice` into a 1-byte buffer panics unless the slice
has exactly 1 byte. -/
def readU8 (l : List Nat) : Option Nat :=
  if l.length = 1 then some (fromLE l) else none

/-- `read_u16` (little endian, exact 2-byte slice or panic). -/
def readU16 (l : List Nat) : Option Nat :=
  if l.length = 2 then some (fromLE l) else none

/-- `read_u32` (little endian, exact 4-byte slice or panic). -/
def readU32 (l : List Nat) : Option Nat :=
  if l.length = 4 then some (fromLE l) else none

/-- `read_u64` (little endian, exact 8-byte slice or panic). -/
def readU64 (l : List Nat) : Option Nat :=
  if l.length = 8 then some (fromLE l) else none

/-- Streaming-read state: a byte list plus a cursor position. -/
structure RdState where
  src : List Nat
  pos : Nat
  deriving DecidableEq, Repr

/-- `Read::read_exact` on an in-memory cursor: `n` bytes or an I/O error. -/
def readExact (r : RdState) (n : Nat) : Except ByteEncodeError (List Nat × RdState) :=
  if r.pos + n ≤ r.src.length then
    .ok ((r.src.drop r.pos).take n, ⟨r.src, r.pos + n⟩)
  else .error .ioError

/-- `u16::decode_from_reader`. -/
def readU16R (r : RdState) : Except ByteEncodeError (Nat × RdState) :=
  match readExact r 2 with
  | .error e => .error e
  | .ok (l, r') => .ok (fromLE l, r')

/-- `u32::decode_from_reader`. -/
def readU32R (r : RdState) : Except ByteEncodeError (Nat × RdState) :=
  match readExact r 4 with
  | .error e => .error e
  | .ok (l, r') => .ok (fromLE l, r')

/-- `BlockIdData`: a 32-bit block number stored as two 16-bit halves. -/
structure BlockIdData where
  bi_hi : Nat
  bi_lo : Nat
  deriving DecidableEq, Repr

/-- `BlockIdData::encode`. -/
def BlockIdData.encode (b : BlockIdData) : List Nat := toLE 2 b.bi_hi ++ toLE 2 b.bi_lo

/-- `BlockIdData::decode`: indexes `bytes[0..2]` and `bytes[2..4]` directly
(a short slice panics), then reads both halves. -/
def BlockIdData.decode (l : List Nat) : PRes BlockIdData :=
  bindP (liftO (idxSlice l 0 2)) fun h =>
  bindP (liftO (readU16 h)) fun bi_hi =>
  bindP (liftO (idxSlice l 2 4)) fun lo =>
  bindP (liftO (readU16 lo)) fun bi_lo =>
  pureP ⟨bi_hi, bi_lo⟩

/-- `ItemPointerData`: block identifier plus a 16-bit position. -/
structure ItemPointerData where
  ip_blkid : BlockIdData
  ip_posid : Nat
  deriving DecidableEq, Repr

/-- `ItemPointerData::encode`. -/
def ItemPointerData.encode (p : ItemPointerData) : List Nat :=
  p.ip_blkid.encode ++ toLE 2 p.ip_posid

/-- `ItemPointerData::decode`: `BlockIdData::decode(&bytes[0..4])` then
`u16::decode(&bytes[4..6])`. -/
def ItemPointerData.decode (l : List Nat) : PRes ItemPointerData :=
  bindP (liftO (idxSlice l 0 4)) fun bk =>
  bindP (BlockIdData.decode bk) fun ip_blkid =>
  bindP (liftO (idxSlice l 4 6)) fun ps =>
  bindP (liftO (readU16 ps)) fun ip_posid =>
  pureP ⟨ip_blkid, ip_posid⟩

/-- `PageXLogRecPtr`: log-sequence pointer, two 32-bit halves. -/
structure PageXLogRecPtr where
  xlogid : Nat
  xrecoff : Nat
  deriving DecidableEq, Repr

/-- `PageXLogRecPtr::encode`. -/
def PageXLogRecPtr.encode (p : PageXLogRecPtr) : List Nat :=
  toLE 4 p.xlogid ++ toLE 4 p.xrecoff

/-- `PageXLogRecPtr::decode`: `u32::decode(&bytes[0..4])` then
`u32::decode(&bytes[4..8])`. -/
def PageXLogRecPtr.decode (l : List Nat) : PRes PageXLogRecPtr :=
  bindP (liftO (idxSlice l 0 4)) fun a =>
  bindP (liftO (readU32 a)) fun xlogid =>
  bindP (liftO (idxSlice l 4 8)) fun b =>
  bindP (liftO (readU32 b)) fun xrecoff =>
  pureP ⟨xlogid, xrecoff⟩

/-- `PageXLogRecPtr::decode_from_reader`: two streaming `u32` reads. -/
def PageXLogRecPtr.decodeFromReader (r : RdState) :
    Except ByteEncodeError (PageXLogRecPtr × RdState) :=
  match readU32R r with
  | .error e => .error e
  | .ok (xlogid, r1) =>
    match readU32R r1 with
    | .error e => .error e
    | .ok (xrecoff, r2) => .ok (⟨xlogid, xrecoff⟩, r2)

/-- `ItemIdData`: the 4-byte bit-packed line pointer; `lp` is the value of
the backing `[u8; 4]` read little-endian (bits 0–14 offset, 15–16 flags,
17–31 length). -/
structure ItemIdData where
  lp : Nat
  deriving DecidableEq, Repr

/-- Accessor `lp_off` (bits 0–14). -/
def ItemIdData.lp_off (i : ItemIdData) : Nat := i.lp % 32768

/-- Accessor `lp_flags` (bits 15–16). -/
def ItemIdData.lp_flags (i : ItemIdData) : Nat := i.lp / 32768 % 4

/-- Accessor `lp_len` (bits 17–31). -/
def ItemIdData.lp_len (i : ItemIdData) : Nat := i.lp / 131072 % 32768

/-- Setter `set_lp_off`: replace bits 0–14, truncating the value to 15 bits. -/
def ItemIdData.set_lp_off (i : ItemIdData) (v : Nat) : ItemIdData :=
  ⟨i.lp / 32768 * 32768 + v % 32768⟩

/-- Setter `set_lp_flags`: replace bits 15–16, truncating the value to 2 bits. -/
def ItemIdData.set_lp_flags (i : ItemIdData) (v : Nat) : ItemIdData :=
  ⟨i.lp / 131072 * 131072 + v % 4 * 32768 + i.lp % 32768⟩

/-- Setter `set_lp_len`: replace bits 17–31, truncating the value to 15 bits. -/
def ItemIdData.set_lp_len (i : ItemIdData) (v : Nat) : ItemIdData :=
  ⟨v % 32768 * 131072 + i.lp % 131072⟩

/-- `ItemIdData::default()`: an all-zero backing store. -/
def ItemIdData.default : ItemIdData := ⟨0⟩

/-- Line-pointer states (`LpFlags`). -/
inductive LpFlags where
  | unused
  | normal
  | redirect
  | dead
  deriving DecidableEq, Repr

/-- `ItemIdData::flags()`: map the 2-bit field to the state enum
(`0 → Unused, 1 → Normal, 2 → Redirect, _ → Dead`). -/
def ItemIdData.flags (i : ItemIdData) : LpFlags :=
  match i.lp_flags with
  | 0 => .unused
  | 1 => .normal
  | 2 => .redirect
  | _ => .dead

/-- Modelled from the spec: `ItemIdData::is_normal` is called by
`Page::from_reader` but defined in a file missing from the sources
(`dto/mod.rs`/`util.rs`); §4.2 skips every slot that is not in the
`Normal` state, so it tests `lp_flags == 1`. -/
def ItemIdData.is_normal (i : ItemIdData) : Bool := i.lp_flags = 1

/-- `ItemIdData::encode`: the backing 4 bytes. -/
def ItemIdData.encode (i : ItemIdData) : List Nat := toLE 4 i.lp

/-- `ItemIdData::decode`: `copy_from_slice` into a `[u8; 4]` — panics unless
the slice is exactly 4 bytes. -/
def ItemIdData.decode (l : List Nat) : PRes ItemIdData :=
  if l.length = 4 then pureP ⟨fromLE l⟩ else none

/-- `PageHeaderData`: the fixed 24-byte page header. -/
structure PageHeaderData where
  pd_lsn : PageXLogRecPtr
  pd_checksum : Nat
  pd_flags : Nat
  pd_lower : Nat
  pd_upper : Nat
  pd_special : Nat
  pd_pagesize_version : Nat
  pd_prune_xid : Nat
  deriving DecidableEq, Repr

/-- `PageHeaderData::encode`: fields in declaration order, little endian. -/
def PageHeaderData.encode (h : PageHeaderData) : List Nat :=
  h.pd_lsn.encode ++ toLE 2 h.pd_checksum ++ toLE 2 h.pd_flags ++
  toLE 2 h.pd_lower ++ toLE 2 h.pd_upper ++ toLE 2 h.pd_special ++
  toLE 2 h.pd_pagesize_version ++ toLE 4 h.pd_prune_xid

/-- `PageHeaderData::decode`: wraps the slice in a cursor and decodes each
field with its streaming decoder; bytes past the first 24 are ignored. -/
def PageHeaderData.decode (l : List Nat) : Except ByteEncodeError PageHeaderData :=
  match PageXLogRecPtr.decodeFromReader ⟨l, 0⟩ with
  | .error e => .error e
  | .ok (pd_lsn, r1) =>
    match readU16R r1 with
    | .error e => .error e
    | .ok (pd_checksum, r2) =>
      match readU16R r2 with
      | .error e => .error e
      | .ok (pd_flags, r3) =>
        match readU16R r3 with
        | .error e => .error e
        | .ok (pd_lower, r4) =>
          match readU16R r4 with
          | .error e => .error e
          | .ok (pd_upper, r5) =>
            match readU16R r5 with
            | .error e => .error e
            | .ok (pd_special, r6) =>
              match readU16R r6 with
              | .error e => .error e
              | .ok (pd_pagesize_version, r7) =>
                match readU32R r7 with
                | .error e => .error e
                | .ok (pd_prune_xid, _) =>
                  .ok ⟨pd_lsn, pd_checksum, pd_flags, pd_lower, pd_upper,
                       pd_special, pd_pagesize_version, pd_prune_xid⟩

/-- `PageHeaderData::page_size()`: mask the high byte of
`pd_pagesize_version`. -/
def PageHeaderData.pageSize (h : PageHeaderData) : Nat :=
  h.pd_pagesize_version &&& 65280

/-- `PageHeaderData::page_version()`: mask the low byte. -/
def PageHeaderData.pageVersion (h : PageHeaderData) : Nat :=
  h.pd_pagesize_version &&& 255

/-- `HeapTupleHeaderData`: 23-byte fixed prefix plus raw payload. -/
structure HeapTupleHeaderData where
  t_xmin : Nat
  t_xmax : Nat
  t_field3 : Nat
  t_ctid : ItemPointerData
  t_infomask2 : Nat
  t_infomask : Nat
  t_hoff : Nat
  data : List Nat
  deriving DecidableEq, Repr

/-- `HeapTupleHeaderData::encode` as written in the source: xmin, xmax,
field3, infomask2, infomask, hoff, payload — the 6-byte `t_ctid` is never
emitted. -/
def HeapTupleHeaderData.encode (t : HeapTupleHeaderData) : List Nat :=
  toLE 4 t.t_xmin ++ toLE 4 t.t_xmax ++ toLE 4 t.t_field3 ++
  toLE 2 t.t_infomask2 ++ toLE 2 t.t_infomask ++ toLE 1 t.t_hoff ++ t.data

/-- `HeapTupleHeaderData::decode`: checked slices for each field of the
23-byte prefix, then `bytes.get(23..)` for the payload. -/
def HeapTupleHeaderData.decode (l : List Nat) : PRes HeapTupleHeaderData :=
  bindP (liftE (getByteSlice l 0 4)) fun s1 =>
  bindP (liftO (readU32 s1)) fun t_xmin =>
  bindP (liftE (getByteSlice l 4 8)) fun s2 =>
  bindP (liftO (readU32 s2)) fun t_xmax =>
  bindP (liftE (getByteSlice l 8 12)) fun s3 =>
  bindP (liftO (readU32 s3)) fun t_field3 =>
  bindP (liftE (getByteSlice l 12 18)) fun s4 =>
  bindP (ItemPointerData.decode s4) fun t_ctid =>
  bindP (liftE (getByteSlice l 18 20)) fun s5 =>
  bindP (liftO (readU16 s5)) fun t_infomask2 =>
  bindP (liftE (getByteSlice l 20 22)) fun s6 =>
  bindP (liftO (readU16 s6)) fun t_infomask =>
  bindP (liftE (getByteSlice l 22 23)) fun s7 =>
  bindP (liftO (readU8 s7)) fun t_hoff =>
  bindP (liftE (if 23 ≤ l.length then .ok (l.drop 23)
                else .error (.notEnoughBytes 23 l.length))) fun payload =>
  pureP ⟨t_xmin, t_xmax, t_field3, t_ctid, t_infomask2, t_infomask, t_hoff, payload⟩

/-- `ItemIdData::byte_size()` = 4. -/
def ItemIdData.byteSize : Nat := 4

/-- `ItemPointerData::byte_size()` = 6. -/
def ItemPointerData.byteSize : Nat := 6

/-- `PageHeaderData::byte_size()` = 24. -/
def PageHeaderData.byteSize : Nat := 24

/-- Modelled from the spec: `HeapTupleHeaderData`'s `ByteEncoded` impl (in
`dto/heap_tuple_header_data.rs`) declares no `byte_size`, so the trait
default from the missing `util.rs` applies; §4.1 specifies that default as
0, meaning a variable-size value that consumes the rest of the input. -/
def HeapTupleHeaderData.byteSize : Nat := 0

/-- `Vec::<ItemIdData>::decode` chunk loop: decode consecutive 4-byte
chunks (`bytes.chunks(4)`; a trailing chunk shorter than 4 bytes is handed
to `ItemIdData::decode` as is, which panics on it). -/
def decodeItemIdChunks : List Nat → PRes (List ItemIdData)
  | [] => pureP []
  | a :: b :: c :: d :: rest =>
    bindP (ItemIdData.decode [a, b, c, d]) fun i =>
    bindP (decodeItemIdChunks rest) fun tail =>
    pureP (i :: tail)
  | l =>
    bindP (ItemIdData.decode l) fun i =>
    pureP [i]

/-- `Vec::<ItemIdData>::decode`: `ItemIdData` has a fixed size of 4, so the
total length must be a multiple of 4 (else `InvalidSize`), then the bytes
are decoded by exact chunking. -/
def vecItemIdDecode (l : List Nat) : PRes (List ItemIdData) :=
  if l.length % 4 ≠ 0 then liftE (.error (.invalidSize 4 l.length))
  else decodeItemIdChunks l

/-- The eagerly decoded page (`dto/page.rs::Page`). -/
structure Page where
  header_data : PageHeaderData
  item_id_data : List ItemIdData
  items : List HeapTupleHeaderData
  special : Option Unit
  deriving DecidableEq, Repr

/-- Tuple-decoding loop of `Page::from_reader`: non-Normal slots are
skipped; for a Normal slot the body slice
`[lp_off - header_size, lp_off - header_size + lp_len)` (`usize`
arithmetic) is decoded as a tuple. -/
def decodeItemsLoop (body : List Nat) : List ItemIdData → PRes (List HeapTupleHeaderData)
  | [] => pureP []
  | i :: rest =>
    if ¬ i.is_normal then decodeItemsLoop body rest
    else
      bindP (liftE (getByteSlice body (sub64 i.lp_off 24)
               (add64 (sub64 i.lp_off 24) i.lp_len))) fun tb =>
      bindP (HeapTupleHeaderData.decode tb) fun t =>
      bindP (decodeItemsLoop body rest) fun ts =>
      pureP (t :: ts)

/-- Body phase of `Page::from_reader`: slice the slot array
`[0, pd_lower - header_size)` out of the body, decode it as a dense line
pointer array, then decode each Normal slot's tuple. -/
def Page.fromParts (h : PageHeaderData) (body : List Nat) : PRes Page :=
  bindP (liftE (getByteSlice body 0 (sub64 h.pd_lower 24))) fun slotBytes =>
  bindP (vecItemIdDecode slotBytes) fun slots =>
  bindP (decodeItemsLoop body slots) fun items =>
  pureP ⟨h, slots, items, none⟩

/-- `Page::from_reader`: read and decode the 24-byte header, read the
remaining `page_size - header_size` bytes, then decode the body. -/
def Page.fromBytes (bytes : List Nat) : PRes Page :=
  match readExact ⟨bytes, 0⟩ 24 with
  | .error e => some (.error e)
  | .ok (hb, r1) =>
    match PageHeaderData.decode hb with
    | .error e => some (.error e)
    | .ok h =>
      match readExact r1 (sub64 h.pageSize 24) with
      | .error e => some (.error e)
      | .ok (body, _) => Page.fromParts h body

/-- `Page::reserve_tuple`: `tuple_size = HeapTupleHeaderData::byte_size() +
data_size`; reject when `pd_upper - pd_lower < tuple_size +
ItemPointerData::byte_size()` (all `u16` arithmetic); otherwise build the
line pointer via `set_lp_off`/`set_lp_len` on a default value, push it,
advance `pd_lower` by `ItemPointerData::byte_size()`, decrease `pd_upper`
by `tuple_size`, and assert `pd_upper ≥ pd_lower` (outer `none` = assert
panic; inner `none` = "no space"). -/
def Page.reserveTuple (p : Page) (data_size : Nat) :
    Option (Option (ItemIdData × Page)) :=
  let tuple_size := add16 HeapTupleHeaderData.byteSize data_size
  if sub16 p.header_data.pd_upper p.header_data.pd_lower <
      add16 tuple_size ItemPointerData.byteSize then
    some none
  else
    let item_id := (ItemIdData.default.set_lp_off
      (sub16 p.header_data.pd_upper tuple_size)).set_lp_len tuple_size
    let h2 : PageHeaderData := { p.header_data with
      pd_lower := add16 p.header_data.pd_lower ItemPointerData.byteSize,
      pd_upper := sub16 p.header_data.pd_upper tuple_size }
    if h2.pd_upper ≥ h2.pd_lower then
      some (some (item_id,
        { p with header_data := h2, item_id_data := p.item_id_data ++ [item_id] }))
    else none

/-- The lazily decoded page (`dto/page_lazy.rs::PageLazy`). -/
structure PageLazy where
  header_data : PageHeaderData
  data : List Nat
  deriving DecidableEq, Repr

/-- `PageLazy::from_reader`: decode the 24-byte header, keep the remaining
`page_size - header_size` bytes raw. -/
def PageLazy.fromBytes (bytes : List Nat) : Except ByteEncodeError PageLazy :=
  match readExact ⟨bytes, 0⟩ 24 with
  | .error e => .error e
  | .ok (hb, r1) =>
    match PageHeaderData.decode hb with
    | .error e => .error e
    | .ok h =>
      match readExact r1 (sub64 h.pageSize 24) with
      | .error e => .error e
      | .ok (body, _) => .ok ⟨h, body⟩

/-- Overwrite `l[s .. s + repl.length)` with `repl` (`copy_from_slice` on an
in-bounds target of the same length). -/
def listWrite (l : List Nat) (s : Nat) (repl : List Nat) : List Nat :=
  l.take s ++ repl ++ l.drop (s + repl.length)

/-- `PageLazy::reserve_tuple`: same size check as the eager version, then
the encoded line pointer is copied into the body slice
`[pd_lower, pd_lower + ItemPointerData::byte_size())`.
`get_byte_slice_mut` is modelled from the spec after its visible immutable
twin (`util.rs` is missing from the sources): out of range yields an
insufficient-bytes error, which `.ok()?` turns into `None`. A successful
`copy_from_slice` requires the 6-byte target and the 4-byte source to have
equal lengths, so the success path panics (outer `none`). -/
def PageLazy.reserveTuple (p : PageLazy) (data_size : Nat) :
    Option (Option (ItemIdData × PageLazy)) :=
  let tuple_size := add16 HeapTupleHeaderData.byteSize data_size
  if sub16 p.header_data.pd_upper p.header_data.pd_lower <
      add16 tuple_size ItemPointerData.byteSize then
    some none
  else
    let item_id := (ItemIdData.default.set_lp_off
      (sub16 p.header_data.pd_upper tuple_size)).set_lp_len tuple_size
    let item_id_bytes := item_id.encode
    let newLower := add16 p.header_data.pd_lower ItemPointerData.byteSize
    match getByteSlice p.data p.header_data.pd_lower newLower with
    | .error _ => some none
    | .ok target =>
      if target.length = item_id_bytes.length then
        let data2 := listWrite p.data p.header_data.pd_lower item_id_bytes
        let h2 : PageHeaderData := { p.header_data with
          pd_lower := newLower,
          pd_upper := sub16 p.header_data.pd_upper tuple_size }
        if h2.pd_upper ≥ h2.pd_lower then some (some (item_id, ⟨h2, data2⟩))
        else none
      else none

/-- One `PageLazyTuplesIter::next` step from cursor `cursor`: `some none`
means iteration ended (cursor reached `pd_lower - header_size`);
`some (some (item, cursor'))` yields an item and the updated cursor — note
the cursor only advances on the `Ok` path; outer `none` = panic. -/
def PageLazy.step (p : PageLazy) (cursor : Nat) :
    Option (Option (Except PgError (ItemIdData × HeapTupleHeaderData) × Nat)) :=
  if cursor ≥ sub16 p.header_data.pd_lower PageHeaderData.byteSize then
    some none
  else
    match getByteSlice p.data cursor (add16 cursor ItemIdData.byteSize) with
    | .error e => some (some (.error (.byteEncoding e), cursor))
    | .ok sl =>
      match ItemIdData.decode sl with
      | none => none
      | some (.error e) => some (some (.error (.byteEncoding e), cursor))
      | some (.ok item_id) =>
        let real_offset := sub16 item_id.lp_off PageHeaderData.byteSize
        match getByteSlice p.data real_offset (add16 real_offset item_id.lp_len) with
        | .error e => some (some (.error (.byteEncoding e), cursor))
        | .ok tb =>
          match HeapTupleHeaderData.decode tb with
          | none => none
          | some (.error e) => some (some (.error (.byteEncoding e), cursor))
          | some (.ok item) =>
            some (some (.ok (item_id, item), add16 cursor ItemIdData.byteSize))

/-- Drive an iterator's step function for at most `n` steps from a cursor,
returning the yielded items and the final cursor (`none` = a step
panicked). -/
def collectWith {it : Type}
    (stp : Nat → Option (Option (it × Nat))) :
    Nat → Nat → Option (List it × Nat)
  | cursor, 0 => some ([], cursor)
  | cursor, n + 1 =>
    match stp cursor with
    | none => none
    | some none => some ([], cursor)
    | some (some (x, c2)) =>
      match collectWith stp c2 n with
      | none => none
      | some (l, cf) => some (x :: l, cf)

/-- Drive the lazy iterator (`PageLazyTuplesIter` consumed as a loop) for at
most `n` steps from a cursor. -/
def PageLazy.collect (p : PageLazy) :
    Nat → Nat → Option (List (Except PgError (ItemIdData × HeapTupleHeaderData)) × Nat) :=
  collectWith p.step

/-- `ByteEncodedSized::decode`: compare the slice length with the declared
size first — `NotEnoughBytes` when shorter, `TooManyBytes` when longer —
and delegate to the type's plain decode only on an exact match. -/
def sizedDecode {t : Type} (dec : List Nat → PRes t) (size : Nat) (bytes : List Nat) :
    PRes t :=
  if bytes.length = size then dec bytes
  else if size < bytes.length then liftE (.error (.tooManyBytes size bytes.length))
  else liftE (.error (.notEnoughBytes size bytes.length))

/-- `PageReader` state: the underlying seekable source with its position,
the tracked logical cursor, and the `ended` flag. -/
structure ReaderSt where
  data : List Nat
  pos : Nat
  cursor : Nat
  ended : Bool
  deriving DecidableEq, Repr

/-- Modelled from the spec: `read_exact_with_eof` lives in the missing
`util.rs`; per §4.6 it fills the buffer completely or reports a clean
end-of-input (`None`) when the source runs out before the buffer is full. -/
def readExactWithEof (s : ReaderSt) (n : Nat) : Option (List Nat × ReaderSt) :=
  if s.pos + n ≤ s.data.length then
    some ((s.data.drop s.pos).take n, { s with pos := s.pos + n })
  else none

/-- `BufReader::seek_relative` with a `usize → i64` cast of the skip
distance: values at or above 2^63 reinterpret as negative; seeking before
the start of the source is an I/O error. -/
def seekRelSigned (s : ReaderSt) (d : Nat) : Except ByteEncodeError ReaderSt :=
  if d < 9223372036854775808 then .ok { s with pos := s.pos + d }
  else if 18446744073709551616 - d ≤ s.pos then
    .ok { s with pos := s.pos - (18446744073709551616 - d) }
  else .error .ioError

/-- One attempt of `PageReader::read_next_page_filtered` (its body with the
tail-recursive skip case returning the continuation state as `.inr`).
While active: read a 24-byte header (clean EOF ends the stream), decode
it; on a rejected header skip `page_size - header_size` bytes, add
`page_size` to the cursor and continue at the next page; otherwise read
the body (clean EOF on truncation) and yield a lazy page, adding
`page_size` to the cursor. -/
def rnpfStep (filt : PageHeaderData → Bool) (s : ReaderSt) :
    (Except ByteEncodeError (Option PageLazy) × ReaderSt) ⊕ ReaderSt :=
  if s.ended then .inl (.ok none, s)
  else
    match readExactWithEof s 24 with
    | none => .inl (.ok none, { s with ended := true })
    | some (hb, s1) =>
      match PageHeaderData.decode hb with
      | .error e => .inl (.error e, s1)
      | .ok h =>
        if ¬ filt h then
          match seekRelSigned s1 (sub64 h.pageSize 24) with
          | .error e => .inl (.error e, s1)
          | .ok s2 => .inr { s2 with cursor := add64 s2.cursor h.pageSize }
        else
          match readExactWithEof s1 (sub64 h.pageSize 24) with
          | none => .inl (.ok none, { s1 with ended := true })
          | some (body, s2) =>
            .inl (.ok (some ⟨h, body⟩), { s2 with cursor := add64 s2.cursor h.pageSize })

/-- Iterate a step until it returns a result, with fuel (the Rust recursion
terminates at end of input; theorems supply more fuel than pages, so the
fuel-0 fallback is unreachable). -/
def loopWith {t : Type} (stp : ReaderSt → t ⊕ ReaderSt) (dflt : ReaderSt → t) :
    Nat → ReaderSt → t
  | 0, s => dflt s
  | fuel + 1, s =>
    match stp s with
    | .inl r => r
    | .inr s2 => loopWith stp dflt fuel s2

/-- `PageReader::read_next_page_filtered`: iterate `rnpfStep`. -/
def readNextPageFiltered (filt : PageHeaderData → Bool) (fuel : Nat) (s : ReaderSt) :
    Except ByteEncodeError (Option PageLazy) × ReaderSt :=
  loopWith (rnpfStep filt) (fun s2 => (.ok none, s2)) fuel s

/-- `PageReader::read_page_at`: absolute seek of the underlying reader —
which does not touch the tracked cursor — then a single unfiltered page
read. -/
def readPageAt (s : ReaderSt) (offset : Nat) (fuel : Nat) :
    Except ByteEncodeError (Option PageLazy) × ReaderSt :=
  readNextPageFiltered (fun _ => true) fuel { s with pos := offset }

/-- `PageReader::seek`: repositions the source and sets the tracked cursor
to the target offset. -/
def seekReader (s : ReaderSt) (offset : Nat) : ReaderSt :=
  { s with pos := offset, cursor := offset }

/-- Drive the reader's iterator (`PageReaderIter::next` in a loop) until it
yields no page, collecting the pages; `pf` is the per-call skip fuel. -/
def consume (filt : PageHeaderData → Bool) (pf : Nat) :
    Nat → ReaderSt → List PageLazy × ReaderSt
  | 0, s => ([], s)
  | n + 1, s =>
    match readNextPageFiltered filt pf s with
    | (.ok (some pg), s2) =>
      let r := consume filt pf n s2
      (pg :: r.1, r.2)
    | (_, s2) => ([], s2)

/-- `u8::encode`. -/
def encodeU8 (x : Nat) : List Nat := toLE 1 x

/-- `u16::encode`. -/
def encodeU16 (x : Nat) : List Nat := toLE 2 x

/-- `u32::encode`. -/
def encodeU32 (x : Nat) : List Nat := toLE 4 x

/-- `u64::encode`. -/
def encodeU64 (x : Nat) : List Nat := toLE 8 x

/-- `u8::decode` (`Ok(read_u8(bytes))`, panicking on a wrong-sized slice). -/
def decodeU8 (l : List Nat) : PRes Nat := liftO (readU8 l)

/-- `u16::decode`. -/
def decodeU16 (l : List Nat) : PRes Nat := liftO (readU16 l)

/-- `u32::decode`. -/
def decodeU32 (l : List Nat) : PRes Nat := liftO (readU32 l)

/-- `u64::decode`. -/
def decodeU64 (l : List Nat) : PRes Nat := liftO (readU64 l)

theorem toLE_length (w x : Nat) : (toLE w x).length = w := by
  induction w generalizing x with
  | zero => simp [toLE]
  | succ w ih => simp [toLE, ih]

theorem fromLE_toLE (w x : Nat) : fromLE (toLE w x) = x % 256 ^ w := by
  induction w generalizing x with
  | zero => simp [toLE, fromLE, Nat.mod_one]
  | succ w ih =>
    have h1 : 256 ^ (w + 1) = 256 * 256 ^ w := by ring
    have h2 := Nat.div_add_mod (x % (256 * 256 ^ w)) 256
    have h3 : x % (256 * 256 ^ w) / 256 = x / 256 % 256 ^ w :=
      Nat.mod_mul_right_div_self x 256 (256 ^ w)
    have h4 : x % (256 * 256 ^ w) % 256 = x % 256 :=
      Nat.mod_mod_of_dvd x ⟨256 ^ w, rfl⟩
    simp only [toLE, fromLE, ih, h1]
    omega

theorem roundtrip_u8 (x : Nat) (h : x < 256) : decodeU8 (encodeU8 x) = pureP x := by
  have := fromLE_toLE 1 x
  simp_all [decodeU8, encodeU8, readU8, liftO, pureP, toLE_length, Nat.mod_eq_of_lt h]

theorem roundtrip_u16 (x : Nat) (h : x < 65536) : decodeU16 (encodeU16 x) = pureP x := by
  have := fromLE_toLE 2 x
  simp_all [decodeU16, encodeU16, readU16, liftO, pureP, toLE_length, Nat.mod_eq_of_lt h]

theorem roundtrip_u32 (x : Nat) (h : x < 4294967296) :
    decodeU32 (encodeU32 x) = pureP x := by
  have := fromLE_toLE 4 x
  simp_all [decodeU32, encodeU32, readU32, liftO, pureP, toLE_length, Nat.mod_eq_of_lt h]

theorem roundtrip_u64 (x : Nat) (h : x < 18446744073709551616) :
    decodeU64 (encodeU64 x) = pureP x := by
  have := fromLE_toLE 8 x
  simp_all [decodeU64, encodeU64, readU64, liftO, pureP, toLE_length, Nat.mod_eq_of_lt h]

theorem roundtrip_blockId (b : BlockIdData) (h1 : b.bi_hi < 65536)
    (h2 : b.bi_lo < 65536) : BlockIdData.decode b.encode = pureP b := by
  obtain ⟨hi, lo⟩ := b
  simp only [BlockIdData.encode, toLE, List.cons_append, List.nil_append]
  simp only [BlockIdData.bi_hi, BlockIdData.bi_lo] at h1 h2
  simp [BlockIdData.decode, idxSlice, readU16, fromLE, bindP, liftO, pureP]
  omega

theorem roundtrip_itemPointer (p : ItemPointerData)
    (h1 : p.ip_blkid.bi_hi < 65536) (h2 : p.ip_blkid.bi_lo < 65536)
    (h3 : p.ip_posid < 65536) : ItemPointerData.decode p.encode = pureP p := by
  obtain ⟨⟨hi, lo⟩, ps⟩ := p
  simp only [BlockIdData.bi_hi, BlockIdData.bi_lo, ItemPointerData.ip_blkid,
    ItemPointerData.ip_posid] at h1 h2 h3
  simp only [ItemPointerData.encode, BlockIdData.encode, toLE,
    List.cons_append, List.nil_append]
  simp [ItemPointerData.decode, BlockIdData.decode, idxSlice, readU16, fromLE,
    bindP, liftO, pureP]
  omega

theorem roundtrip_xlogPtr (p : PageXLogRecPtr)
    (h1 : p.xlogid < 4294967296) (h2 : p.xrecoff < 4294967296) :
    PageXLogRecPtr.decode p.encode = pureP p := by
  obtain ⟨a, b⟩ := p
  simp only [PageXLogRecPtr.xlogid, PageXLogRecPtr.xrecoff] at h1 h2
  simp only [PageXLogRecPtr.encode, toLE, List.cons_append, List.nil_append]
  simp [PageXLogRecPtr.decode, idxSlice, readU32, fromLE, bindP, liftO, pureP]
  omega

theorem roundtrip_itemId (i : ItemIdData) (h : i.lp < 4294967296) :
    ItemIdData.decode i.encode = pureP i := by
  obtain ⟨lp⟩ := i
  simp only [ItemIdData.lp] at h
  have h4 := fromLE_toLE 4 lp
  simp [ItemIdData.decode, ItemIdData.encode, toLE_length, h4, Nat.mod_eq_of_lt h,
    pureP]

theorem roundtrip_pageHeader (h : PageHeaderData)
    (h1 : h.pd_lsn.xlogid < 4294967296) (h2 : h.pd_lsn.xrecoff < 4294967296)
    (h3 : h.pd_checksum < 65536) (h4 : h.pd_flags < 65536)
    (h5 : h.pd_lower < 65536) (h6 : h.pd_upper < 65536)
    (h7 : h.pd_special < 65536) (h8 : h.pd_pagesize_version < 65536)
    (h9 : h.pd_prune_xid < 4294967296) :
    PageHeaderData.decode h.encode = .ok h := by
  obtain ⟨⟨xl, xr⟩, c, f, lo, up, sp, pv, px⟩ := h
  simp only [PageXLogRecPtr.xlogid, PageXLogRecPtr.xrecoff, PageHeaderData.pd_lsn,
    PageHeaderData.pd_checksum, PageHeaderData.pd_flags, PageHeaderData.pd_lower,
    PageHeaderData.pd_upper, PageHeaderData.pd_special,
    PageHeaderData.pd_pagesize_version, PageHeaderData.pd_prune_xid] at h1 h2 h3 h4 h5 h6 h7 h8 h9
  simp only [PageHeaderData.encode, PageXLogRecPtr.encode, toLE,
    List.cons_append, List.nil_append]
  simp [PageHeaderData.decode, PageXLogRecPtr.decodeFromReader, readU32R,
    readU16R, readExact, fromLE]
  omega

theorem encode_pageHeader_length (h : PageHeaderData) : h.encode.length = 24 := by
  simp [PageHeaderData.encode, PageXLogRecPtr.encode, toLE_length]

theorem lp_off_set_lp_off (i : ItemIdData) (v : Nat) :
    (i.set_lp_off v).lp_off = v % 32768 := by
  simp [ItemIdData.set_lp_off, ItemIdData.lp_off]
  omega

theorem lp_len_set_lp_len (i : ItemIdData) (v : Nat) :
    (i.set_lp_len v).lp_len = v % 32768 := by
  simp [ItemIdData.set_lp_len, ItemIdData.lp_len]
  omega

theorem lp_off_set_lp_len (i : ItemIdData) (v : Nat) :
    (i.set_lp_len v).lp_off = i.lp_off := by
  simp [ItemIdData.set_lp_len, ItemIdData.lp_off]
  omega

theorem lp_flags_set_lp_len (i : ItemIdData) (v : Nat) :
    (i.set_lp_len v).lp_flags = i.lp_flags := by
  simp [ItemIdData.set_lp_len, ItemIdData.lp_flags]
  omega

theorem lp_flags_set_lp_off (i : ItemIdData) (v : Nat) :
    (i.set_lp_off v).lp_flags = i.lp_flags := by
  simp [ItemIdData.set_lp_off, ItemIdData.lp_flags]
  omega

/-- C9: every fixed-size primitive and composite codec round-trips
(`decode(encode(x)) = x`) on all in-range values including the boundary
values; the line pointer built by setting flags = 1, length = 2,
offset = 3 round-trips to the identical triple; and the four 2-bit state
values map to Unused, Normal, Redirect, Dead. -/
theorem c9_fixed_size_roundtrips :
    (∀ x, x < 256 → decodeU8 (encodeU8 x) = pureP x) ∧
    (∀ x, x < 65536 → decodeU16 (encodeU16 x) = pureP x) ∧
    (∀ x, x < 4294967296 → decodeU32 (encodeU32 x) = pureP x) ∧
    (∀ x, x < 18446744073709551616 → decodeU64 (encodeU64 x) = pureP x) ∧
    (∀ b : BlockIdData, b.bi_hi < 65536 → b.bi_lo < 65536 →
      BlockIdData.decode b.encode = pureP b) ∧
    (∀ p : ItemPointerData, p.ip_blkid.bi_hi < 65536 → p.ip_blkid.bi_lo < 65536 →
      p.ip_posid < 65536 → ItemPointerData.decode p.encode = pureP p) ∧
    (∀ p : PageXLogRecPtr, p.xlogid < 4294967296 → p.xrecoff < 4294967296 →
      PageXLogRecPtr.decode p.encode = pureP p) ∧
    (∀ i : ItemIdData, i.lp < 4294967296 → ItemIdData.decode i.encode = pureP i) ∧
    (∀ h : PageHeaderData, h.pd_lsn.xlogid < 4294967296 →
      h.pd_lsn.xrecoff < 4294967296 → h.pd_checksum < 65536 → h.pd_flags < 65536 →
      h.pd_lower < 65536 → h.pd_upper < 65536 → h.pd_special < 65536 →
      h.pd_pagesize_version < 65536 → h.pd_prune_xid < 4294967296 →
      PageHeaderData.decode h.encode = .ok h) ∧
    (ItemIdData.decode
        (((ItemIdData.default.set_lp_flags 1).set_lp_len 2).set_lp_off 3).encode =
      pureP (((ItemIdData.default.set_lp_flags 1).set_lp_len 2).set_lp_off 3) ∧
      (((ItemIdData.default.set_lp_flags 1).set_lp_len 2).set_lp_off 3).lp_off = 3 ∧
      (((ItemIdData.default.set_lp_flags 1).set_lp_len 2).set_lp_off 3).lp_flags = 1 ∧
      (((ItemIdData.default.set_lp_flags 1).set_lp_len 2).set_lp_off 3).lp_len = 2) ∧
    ((ItemIdData.default.set_lp_flags 0).flags = .unused ∧
      (ItemIdData.default.set_lp_flags 1).flags = .normal ∧
      (ItemIdData.default.set_lp_flags 2).flags = .redirect ∧
      (ItemIdData.default.set_lp_flags 3).flags = .dead) :=
  ⟨roundtrip_u8, roundtrip_u16, roundtrip_u32, roundtrip_u64, roundtrip_blockId,
   roundtrip_itemPointer, roundtrip_xlogPtr, roundtrip_itemId, roundtrip_pageHeader,
   by constructor
      · exact roundtrip_itemId _ (by decide)
      · decide,
   by decide⟩

/-- C9 witness: the round-trips instantiated at boundary values. -/
theorem c9_fixed_size_roundtrips_witness :
    decodeU8 (encodeU8 255) = pureP 255 ∧
    decodeU16 (encodeU16 65535) = pureP 65535 ∧
    decodeU32 (encodeU32 4294967295) = pureP 4294967295 ∧
    decodeU64 (encodeU64 18446744073709551615) = pureP 18446744073709551615 ∧
    BlockIdData.decode (BlockIdData.mk 65535 0).encode = pureP (BlockIdData.mk 65535 0) ∧
    ItemPointerData.decode (ItemPointerData.mk (BlockIdData.mk 0 65535) 65535).encode =
      pureP (ItemPointerData.mk (BlockIdData.mk 0 65535) 65535) ∧
    PageXLogRecPtr.decode (PageXLogRecPtr.mk 4294967295 0).encode =
      pureP (PageXLogRecPtr.mk 4294967295 0) ∧
    ItemIdData.decode (ItemIdData.mk 4294967295).encode = pureP (ItemIdData.mk 4294967295) ∧
    PageHeaderData.decode
        (PageHeaderData.mk (PageXLogRecPtr.mk 1 2) 2 3 4 5 6 7 8).encode =
      .ok (PageHeaderData.mk (PageXLogRecPtr.mk 1 2) 2 3 4 5 6 7 8) := by
  obtain ⟨r8, r16, r32, r64, rb, rp, rx, ri, rh, _, _⟩ := c9_fixed_size_roundtrips
  exact ⟨r8 255 (by decide), r16 65535 (by decide), r32 4294967295 (by decide),
    r64 18446744073709551615 (by decide), rb _ (by decide) (by decide),
    rp _ (by decide) (by decide) (by decide), rx _ (by decide) (by decide),
    ri _ (by decide),
    rh _ (by decide) (by decide) (by decide) (by decide) (by decide) (by decide)
      (by decide) (by decide) (by decide)⟩

/-- C5 counterexample: `PageHeaderData::decode` on a 25-byte slice — one
byte longer than the declared 24-byte size — silently succeeds instead of
failing with an excess-bytes error. -/
theorem c5_counterexample_header_long :
    ((PageHeaderData.mk (PageXLogRecPtr.mk 1 2) 2 3 4 5 6 7 8).encode ++ [0]).length = 25 ∧
    PageHeaderData.decode
        ((PageHeaderData.mk (PageXLogRecPtr.mk 1 2) 2 3 4 5 6 7 8).encode ++ [0]) =
      .ok (PageHeaderData.mk (PageXLogRecPtr.mk 1 2) 2 3 4 5 6 7 8) := by
  constructor
  · decide
  · rfl

/-- C5 amended: exact-size enforcement lives on the `ByteEncodedSized::decode`
path — for any underlying decoder and declared size, a shorter slice fails
with `NotEnoughBytes` and a longer slice with `TooManyBytes`, and the
underlying decoder is never consulted. -/
theorem c5_sized_decode_enforces_size {t : Type} (dec : List Nat → PRes t)
    (size : Nat) (bytes : List Nat) :
    (bytes.length < size →
      sizedDecode dec size bytes = liftE (.error (.notEnoughBytes size bytes.length))) ∧
    (size < bytes.length →
      sizedDecode dec size bytes = liftE (.error (.tooManyBytes size bytes.length))) := by
  constructor
  · intro h
    have h1 : bytes.length ≠ size := Nat.ne_of_lt h
    have h2 : ¬ size < bytes.length := Nat.not_lt.2 (Nat.le_of_lt h)
    simp [sizedDecode, h1, h2]
  · intro h
    have h1 : bytes.length ≠ size := (Nat.ne_of_lt h).symm
    simp [sizedDecode, h1, h]

/-- C5 witness: the sized decode of `u16` rejects a 1-byte slice as
insufficient and a 3-byte slice as excess. -/
theorem c5_sized_decode_enforces_size_witness :
    sizedDecode decodeU16 2 [1] = liftE (.error (.notEnoughBytes 2 1)) ∧
    sizedDecode decodeU16 2 [1, 2, 3] = liftE (.error (.tooManyBytes 2 3)) :=
  ⟨(c5_sized_decode_enforces_size decodeU16 2 [1]).1 (by decide),
   (c5_sized_decode_enforces_size decodeU16 2 [1, 2, 3]).2 (by decide)⟩

/-- C4: the tuple-header encoder omits the 6-byte `t_ctid` item pointer
(and only it), so the encoding of the repository's own round-trip test
tuple is 22 bytes instead of 23 + 5, and decoding it back fails with an
insufficient-bytes error instead of returning the tuple. -/
theorem c4_encode_omits_ctid :
    (HeapTupleHeaderData.mk 1 2 3 (ItemPointerData.mk (BlockIdData.mk 5 6) 6)
        7 8 9 [1, 2, 3, 4, 5]).encode.length = 22 ∧
    HeapTupleHeaderData.decode
        (HeapTupleHeaderData.mk 1 2 3 (ItemPointerData.mk (BlockIdData.mk 5 6) 6)
          7 8 9 [1, 2, 3, 4, 5]).encode =
      some (.error (.notEnoughBytes 23 22)) := by
  constructor
  · decide
  · rfl

/-- An empty page of size 8192 (layout version 4): `pd_lower` at the end of
the 24-byte header, `pd_upper` and `pd_special` at the page end. -/
def emptyPage8192 : Page :=
  ⟨⟨⟨0, 0⟩, 0, 0, 24, 8192, 8192, 8196, 0⟩, [], [], none⟩

/-- C1: evaluated on an empty 8192-byte page with payload size 5,
`reserve_tuple` succeeds but (a) computes `tuple_size = 0 + 5` because
`HeapTupleHeaderData::byte_size()` is the trait default 0, not 23, so the
reserved line pointer has length 5 and offset 8187; (b) leaves the line
pointer in state 0 (Unused), never setting Normal; and (c) advances
`pd_lower` by `ItemPointerData::byte_size()` = 6 — not the 4-byte line
pointer width — giving `pd_lower = 30`. -/
theorem c1_reserve_tuple_divergence :
    Page.reserveTuple emptyPage8192 5 =
      some (some (ItemIdData.mk 663547,
        ⟨⟨⟨0, 0⟩, 0, 0, 30, 8187, 8192, 8196, 0⟩, [ItemIdData.mk 663547], [], none⟩)) ∧
    (ItemIdData.mk 663547).lp_flags = 0 ∧
    (ItemIdData.mk 663547).lp_len = 5 ∧
    (ItemIdData.mk 663547).lp_off = 8187 := by
  refine ⟨by decide, by decide, by decide, by decide⟩

theorem sub16_of_le (a b : Nat) (hb : b ≤ a) (ha : a < 65536) :
    sub16 a b = a - b := by
  simp only [sub16]
  omega

theorem add16_of_lt (a b : Nat) (h : a + b < 65536) : add16 a b = a + b := by
  simp only [add16]
  omega

/-- C7 counterexample: starting from the empty 8192-byte page, reserving
100 bytes and then 65533 bytes both succeed — although only 8062 bytes of
free space remain for the second call, whose size check wraps around in
`u16` — and the second returned slot's byte range `[8095, 40860)` overlaps
the first's `[8092, 8192)`. -/
theorem c7_counterexample_overflow :
    Page.reserveTuple emptyPage8192 100 =
      some (some (ItemIdData.mk 13115292,
        ⟨⟨⟨0, 0⟩, 0, 0, 30, 8092, 8192, 8196, 0⟩, [ItemIdData.mk 13115292], [], none⟩)) ∧
    Page.reserveTuple
        ⟨⟨⟨0, 0⟩, 0, 0, 30, 8092, 8192, 8196, 0⟩, [ItemIdData.mk 13115292], [], none⟩
        65533 =
      some (some (ItemIdData.mk 4294582175,
        ⟨⟨⟨0, 0⟩, 0, 0, 36, 8095, 8192, 8196, 0⟩,
         [ItemIdData.mk 13115292, ItemIdData.mk 4294582175], [], none⟩)) ∧
    8092 - 30 < 65533 + 6 ∧
    (ItemIdData.mk 4294582175).lp_off < (ItemIdData.mk 13115292).lp_off +
      (ItemIdData.mk 13115292).lp_len ∧
    (ItemIdData.mk 13115292).lp_off < (ItemIdData.mk 4294582175).lp_off +
      (ItemIdData.mk 4294582175).lp_len := by
  refine ⟨by decide, by decide, by decide, by decide, by decide⟩

/-- Run a sequence of `reserve_tuple` calls, recording the byte range
`[lp_off, lp_off + lp_len)` of each successful reservation; `none` = a call
panicked. -/
def runAlloc : Page → List Nat → Option (Page × List (Nat × Nat))
  | p, [] => some (p, [])
  | p, s :: rest =>
    match p.reserveTuple s with
    | none => none
    | some none => runAlloc p rest
    | some (some (i, p2)) =>
      match runAlloc p2 rest with
      | none => none
      | some (pf, rgs) => some (pf, (i.lp_off, i.lp_off + i.lp_len) :: rgs)

theorem reserveTuple_success (p : Page) (s : Nat) (hs : s ≤ 65529)
    (h1 : 24 ≤ p.header_data.pd_lower)
    (h2 : p.header_data.pd_lower ≤ p.header_data.pd_upper)
    (h3 : p.header_data.pd_upper ≤ 8192)
    (hc : ¬ p.header_data.pd_upper - p.header_data.pd_lower < s + 6) :
    p.reserveTuple s =
      some (some ((ItemIdData.default.set_lp_off (p.header_data.pd_upper - s)).set_lp_len s,
        { p with
          header_data := { p.header_data with
            pd_lower := p.header_data.pd_lower + 6,
            pd_upper := p.header_data.pd_upper - s },
          item_id_data := p.item_id_data ++
            [(ItemIdData.default.set_lp_off (p.header_data.pd_upper - s)).set_lp_len s] })) := by
  have hts : add16 HeapTupleHeaderData.byteSize s = s := by
    simp only [add16, HeapTupleHeaderData.byteSize]
    omega
  have hth : add16 s ItemPointerData.byteSize = s + 6 := by
    simp only [add16, ItemPointerData.byteSize]
    omega
  have hsub : sub16 p.header_data.pd_upper p.header_data.pd_lower =
      p.header_data.pd_upper - p.header_data.pd_lower := by
    simp only [sub16]
    omega
  have hoff : sub16 p.header_data.pd_upper s = p.header_data.pd_upper - s := by
    simp only [sub16]
    omega
  have hlow : add16 p.header_data.pd_lower ItemPointerData.byteSize =
      p.header_data.pd_lower + 6 := by
    simp only [add16, ItemPointerData.byteSize]
    omega
  have hassert : p.header_data.pd_lower + 6 ≤ p.header_data.pd_upper - s := by omega
  simp [Page.reserveTuple, hts, hth, hsub, hc, hoff, hlow, hassert]

theorem reserveTuple_none_iff (p : Page) (s : Nat) (hs : s ≤ 65529)
    (h1 : 24 ≤ p.header_data.pd_lower)
    (h2 : p.header_data.pd_lower ≤ p.header_data.pd_upper)
    (h3 : p.header_data.pd_upper ≤ 8192) :
    (p.reserveTuple s = some none ↔
      p.header_data.pd_upper - p.header_data.pd_lower < s + 6) := by
  have hts : add16 HeapTupleHeaderData.byteSize s = s := by
    simp only [add16, HeapTupleHeaderData.byteSize]
    omega
  have hth : add16 s ItemPointerData.byteSize = s + 6 := by
    simp only [add16, ItemPointerData.byteSize]
    omega
  have hsub : sub16 p.header_data.pd_upper p.header_data.pd_lower =
      p.header_data.pd_upper - p.header_data.pd_lower := by
    simp only [sub16]
    omega
  by_cases hc : p.header_data.pd_upper - p.header_data.pd_lower < s + 6
  · simp [Page.reserveTuple, hts, hth, hsub, hc]
  · rw [reserveTuple_success p s hs h1 h2 h3 hc]
    simp [hc]

theorem runAlloc_inv (rs : List Nat) : ∀ (p : Page), (∀ s ∈ rs, s ≤ 65529) →
    24 ≤ p.header_data.pd_lower →
    p.header_data.pd_lower ≤ p.header_data.pd_upper →
    p.header_data.pd_upper ≤ 8192 →
    ∃ pf rgs, runAlloc p rs = some (pf, rgs) ∧
      24 ≤ pf.header_data.pd_lower ∧
      pf.header_data.pd_lower ≤ pf.header_data.pd_upper ∧
      pf.header_data.pd_upper ≤ p.header_data.pd_upper ∧
      (∀ r ∈ rgs, pf.header_data.pd_upper ≤ r.1 ∧ r.1 ≤ r.2 ∧
        r.2 ≤ p.header_data.pd_upper) ∧
      List.Pairwise (fun a b : Nat × Nat => b.2 ≤ a.1 ∨ a.2 ≤ b.1) rgs := by
  induction rs with
  | nil =>
    intro p _ h1 h2 _
    exact ⟨p, [], rfl, h1, h2, le_refl _, by simp, by simp⟩
  | cons s rest ih =>
    intro p hb h1 h2 h3
    have hs : s ≤ 65529 := hb s (List.mem_cons_self s rest)
    have hbr : ∀ x ∈ rest, x ≤ 65529 := fun x hx => hb x (List.mem_cons_of_mem s hx)
    by_cases hc : p.header_data.pd_upper - p.header_data.pd_lower < s + 6
    · have hnone : p.reserveTuple s = some none :=
        (reserveTuple_none_iff p s hs h1 h2 h3).2 hc
      obtain ⟨pf, rgs, hrun, k1, k2, k3, k4, k5⟩ := ih p hbr h1 h2 h3
      refine ⟨pf, rgs, ?_, k1, k2, k3, k4, k5⟩
      simp [runAlloc, hnone, hrun]
    · have hres := reserveTuple_success p s hs h1 h2 h3 hc
      have hio : ((ItemIdData.default.set_lp_off (p.header_data.pd_upper - s)).set_lp_len
          s).lp_off = p.header_data.pd_upper - s := by
        rw [lp_off_set_lp_len, lp_off_set_lp_off]
        omega
      have hil : ((ItemIdData.default.set_lp_off (p.header_data.pd_upper - s)).set_lp_len
          s).lp_len = s := by
        rw [lp_len_set_lp_len]
        omega
      obtain ⟨pf, rgs, hrun, k1, k2, k3, k4, k5⟩ := ih
        { p with
          header_data := { p.header_data with
            pd_lower := p.header_data.pd_lower + 6,
            pd_upper := p.header_data.pd_upper - s },
          item_id_data := p.item_id_data ++
            [(ItemIdData.default.set_lp_off (p.header_data.pd_upper - s)).set_lp_len s] }
        hbr (by simp; omega) (by simp; omega) (by simp; omega)
      have k3' : pf.header_data.pd_upper ≤ p.header_data.pd_upper - s := k3
      have k4' : ∀ r ∈ rgs, pf.header_data.pd_upper ≤ r.1 ∧ r.1 ≤ r.2 ∧
          r.2 ≤ p.header_data.pd_upper - s := k4
      refine ⟨pf, (p.header_data.pd_upper - s, p.header_data.pd_upper) :: rgs, ?_, k1, k2,
        by omega, ?_, ?_⟩
      · simp only [runAlloc, hres, hrun, hio, hil]
        have : p.header_data.pd_upper - s + s = p.header_data.pd_upper := by omega
        rw [this]
      · intro r hr
        rcases List.mem_cons.1 hr with h | h
        · subst h
          exact ⟨k3', by omega, le_refl _⟩
        · obtain ⟨m1, m2, m3⟩ := k4' r h
          exact ⟨m1, m2, by omega⟩
      · refine List.Pairwise.cons ?_ k5
        intro r hr
        obtain ⟨_, _, m3⟩ := k4' r hr
        exact Or.inl m3

/-- C7 (amended): for every sequence of `reserve_tuple` calls on the empty
8192-byte page in which each requested size is at most 65529 (so the
`u16` size check cannot wrap), no call panics, `pd_upper ≥ pd_lower` holds
after every call (every prefix of the sequence, hence after each step), the
byte ranges of the successful reservations are pairwise disjoint, and a
further call returns "no space" exactly when its request does not fit in
`pd_upper − pd_lower`. -/
theorem c7_alloc_invariant (rs : List Nat) (hb : ∀ s ∈ rs, s ≤ 65529) (k : Nat) :
    ∃ pf rgs, runAlloc emptyPage8192 (rs.take k) = some (pf, rgs) ∧
      pf.header_data.pd_lower ≤ pf.header_data.pd_upper ∧
      (∀ r ∈ rgs, r.1 ≤ r.2 ∧ r.2 ≤ 8192) ∧
      List.Pairwise (fun a b : Nat × Nat => b.2 ≤ a.1 ∨ a.2 ≤ b.1) rgs ∧
      (∀ s2, s2 ≤ 65529 →
        (pf.reserveTuple s2 = some none ↔
          pf.header_data.pd_upper - pf.header_data.pd_lower < s2 + 6)) := by
  have hbk : ∀ s ∈ rs.take k, s ≤ 65529 :=
    fun s hsm => hb s ((List.take_subset k rs) hsm)
  obtain ⟨pf, rgs, hrun, k1, k2, k3, k4, k5⟩ :=
    runAlloc_inv (rs.take k) emptyPage8192 hbk (by decide) (by decide) (by decide)
  refine ⟨pf, rgs, hrun, k2, ?_, k5, ?_⟩
  · intro r hr
    obtain ⟨_, m2, m3⟩ := k4 r hr
    exact ⟨m2, le_trans m3 (by decide)⟩
  · intro s2 hs2
    exact reserveTuple_none_iff pf s2 hs2 k1 k2 (le_trans k3 (by decide))

/-- C7 witness: the invariant instantiated on the request sequence
`[100, 200]` taken whole. -/
theorem c7_alloc_invariant_witness :
    ∃ pf rgs, runAlloc emptyPage8192 ([100, 200].take 2) = some (pf, rgs) ∧
      pf.header_data.pd_lower ≤ pf.header_data.pd_upper ∧
      (∀ r ∈ rgs, r.1 ≤ r.2 ∧ r.2 ≤ 8192) ∧
      List.Pairwise (fun a b : Nat × Nat => b.2 ≤ a.1 ∨ a.2 ≤ b.1) rgs ∧
      (∀ s2, s2 ≤ 65529 →
        (pf.reserveTuple s2 = some none ↔
          pf.header_data.pd_upper - pf.header_data.pd_lower < s2 + 6)) :=
  c7_alloc_invariant [100, 200] (by decide) 2

theorem getByteSlice_ok (l : List Nat) (s e : Nat) (h1 : s ≤ e) (h2 : e ≤ l.length) :
    getByteSlice l s e = .ok ((l.drop s).take (e - s)) := by
  simp [getByteSlice, h1, h2]

theorem getByteSlice_err (l : List Nat) (s e : Nat) (h : ¬ (s ≤ e ∧ e ≤ l.length)) :
    getByteSlice l s e = .error (.notEnoughBytes e l.length) := by
  simp only [getByteSlice, if_neg h]

theorem idxSlice_ok (l : List Nat) (s e : Nat) (h1 : s ≤ e) (h2 : e ≤ l.length) :
    idxSlice l s e = some ((l.drop s).take (e - s)) := by
  simp [idxSlice, h1, h2]

theorem readU32_of_len (l : List Nat) (h : l.length = 4) :
    readU32 l = some (fromLE l) := by
  simp [readU32, h]

theorem readU16_of_len (l : List Nat) (h : l.length = 2) :
    readU16 l = some (fromLE l) := by
  simp [readU16, h]

theorem readU8_of_len (l : List Nat) (h : l.length = 1) :
    readU8 l = some (fromLE l) := by
  simp [readU8, h]

theorem slice_len (l : List Nat) (s e : Nat) (h2 : e ≤ l.length) :
    ((l.drop s).take (e - s)).length = e - s := by
  simp [List.length_take, List.length_drop]
  omega

theorem itemPointerDecode_of_len (l : List Nat) (h : l.length = 6) :
    ∃ v, ItemPointerData.decode l = pureP v := by
  match l, h with
  | [a, b, c, d, e2, f], _ => exact ⟨_, rfl⟩

theorem heapDecode_master (l : List Nat) :
    (23 ≤ l.length ∧ ∃ t, HeapTupleHeaderData.decode l = some (.ok t)) ∨
    (l.length < 23 ∧ ∃ x, HeapTupleHeaderData.decode l =
      some (.error (.notEnoughBytes x l.length))) := by
  rcases Nat.lt_or_ge l.length 4 with h4 | h4
  · right
    refine ⟨by omega, ?_⟩
    unfold HeapTupleHeaderData.decode
    rw [getByteSlice_err l 0 4 (by omega)]
    exact ⟨4, rfl⟩
  rcases Nat.lt_or_ge l.length 8 with h8 | h8
  · right
    refine ⟨by omega, ?_⟩
    unfold HeapTupleHeaderData.decode
    rw [getByteSlice_ok l 0 4 (by omega) (by omega)]
    simp only [liftE, bindP]
    rw [readU32_of_len _ (by simp [List.length_take, List.length_drop]; omega)]
    simp only [liftO, bindP]
    rw [getByteSlice_err l 4 8 (by omega)]
    exact ⟨8, rfl⟩
  rcases Nat.lt_or_ge l.length 12 with h12 | h12
  · right
    refine ⟨by omega, ?_⟩
    unfold HeapTupleHeaderData.decode
    rw [getByteSlice_ok l 0 4 (by omega) (by omega)]
    simp only [liftE, bindP]
    rw [readU32_of_len _ (by simp [List.length_take, List.length_drop]; omega)]
    simp only [liftO, bindP]
    rw [getByteSlice_ok l 4 8 (by omega) (by omega)]
    simp only [liftE, bindP]
    rw [readU32_of_len _ (by simp [List.length_take, List.length_drop]; omega)]
    simp only [liftO, bindP]
    rw [getByteSlice_err l 8 12 (by omega)]
    exact ⟨12, rfl⟩
  rcases Nat.lt_or_ge l.length 18 with h18 | h18
  · right
    refine ⟨by omega, ?_⟩
    unfold HeapTupleHeaderData.decode
    rw [getByteSlice_ok l 0 4 (by omega) (by omega)]
    simp only [liftE, bindP]
    rw [readU32_of_len _ (by simp [List.length_take, List.length_drop]; omega)]
    simp only [liftO, bindP]
    rw [getByteSlice_ok l 4 8 (by omega) (by omega)]
    simp only [liftE, bindP]
    rw [readU32_of_len _ (by simp [List.length_take, List.length_drop]; omega)]
    simp only [liftO, bindP]
    rw [getByteSlice_ok l 8 12 (by omega) (by omega)]
    simp only [liftE, bindP]
    rw [readU32_of_len _ (by simp [List.length_take, List.length_drop]; omega)]
    simp only [liftO, bindP]
    rw [getByteSlice_err l 12 18 (by omega)]
    exact ⟨18, rfl⟩
  rcases Nat.lt_or_ge l.length 20 with h20 | h20
  · right
    refine ⟨by omega, ?_⟩
    unfold HeapTupleHeaderData.decode
    rw [getByteSlice_ok l 0 4 (by omega) (by omega)]
    simp only [liftE, bindP]
    rw [readU32_of_len _ (by simp [List.length_take, List.length_drop]; omega)]
    simp only [liftO, bindP]
    rw [getByteSlice_ok l 4 8 (by omega) (by omega)]
    simp only [liftE, bindP]
    rw [readU32_of_len _ (by simp [List.length_take, List.length_drop]; omega)]
    simp only [liftO, bindP]
    rw [getByteSlice_ok l 8 12 (by omega) (by omega)]
    simp only [liftE, bindP]
    rw [readU32_of_len _ (by simp [List.length_take, List.length_drop]; omega)]
    simp only [liftO, bindP]
    rw [getByteSlice_ok l 12 18 (by omega) (by omega)]
    simp only [liftE, bindP]
    obtain ⟨v, hv⟩ := itemPointerDecode_of_len ((l.drop 12).take (18 - 12))
      (by simp [List.length_take, List.length_drop]; omega)
    rw [hv]
    simp only [pureP, bindP]
    rw [getByteSlice_err l 18 20 (by omega)]
    exact ⟨20, rfl⟩
  rcases Nat.lt_or_ge l.length 22 with h22 | h22
  · right
    refine ⟨by omega, ?_⟩
    unfold HeapTupleHeaderData.decode
    rw [getByteSlice_ok l 0 4 (by omega) (by omega)]
    simp only [liftE, bindP]
    rw [readU32_of_len _ (by simp [List.length_take, List.length_drop]; omega)]
    simp only [liftO, bindP]
    rw [getByteSlice_ok l 4 8 (by omega) (by omega)]
    simp only [liftE, bindP]
    rw [readU32_of_len _ (by simp [List.length_take, List.length_drop]; omega)]
    simp only [liftO, bindP]
    rw [getByteSlice_ok l 8 12 (by omega) (by omega)]
    simp only [liftE, bindP]
    rw [readU32_of_len _ (by simp [List.length_take, List.length_drop]; omega)]
    simp only [liftO, bindP]
    rw [getByteSlice_ok l 12 18 (by omega) (by omega)]
    simp only [liftE, bindP]
    obtain ⟨v, hv⟩ := itemPointerDecode_of_len ((l.drop 12).take (18 - 12))
      (by simp [List.length_take, List.length_drop]; omega)
    rw [hv]
    simp only [pureP, bindP]
    rw [getByteSlice_ok l 18 20 (by omega) (by omega)]
    simp only [liftE, bindP]
    rw [readU16_of_len _ (by simp [List.length_take, List.length_drop]; omega)]
    simp only [liftO, bindP]
    rw [getByteSlice_err l 20 22 (by omega)]
    exact ⟨22, rfl⟩
  rcases Nat.lt_or_ge l.length 23 with h23 | h23
  · right
    refine ⟨by omega, ?_⟩
    unfold HeapTupleHeaderData.decode
    rw [getByteSlice_ok l 0 4 (by omega) (by omega)]
    simp only [liftE, bindP]
    rw [readU32_of_len _ (by simp [List.length_take, List.length_drop]; omega)]
    simp only [liftO, bindP]
    rw [getByteSlice_ok l 4 8 (by omega) (by omega)]
    simp only [liftE, bindP]
    rw [readU32_of_len _ (by simp [List.length_take, List.length_drop]; omega)]
    simp only [liftO, bindP]
    rw [getByteSlice_ok l 8 12 (by omega) (by omega)]
    simp only [liftE, bindP]
    rw [readU32_of_len _ (by simp [List.length_take, List.length_drop]; omega)]
    simp only [liftO, bindP]
    rw [getByteSlice_ok l 12 18 (by omega) (by omega)]
    simp only [liftE, bindP]
    obtain ⟨v, hv⟩ := itemPointerDecode_of_len ((l.drop 12).take (18 - 12))
      (by simp [List.length_take, List.length_drop]; omega)
    rw [hv]
    simp only [pureP, bindP]
    rw [getByteSlice_ok l 18 20 (by omega) (by omega)]
    simp only [liftE, bindP]
    rw [readU16_of_len _ (by simp [List.length_take, List.length_drop]; omega)]
    simp only [liftO, bindP]
    rw [getByteSlice_ok l 20 22 (by omega) (by omega)]
    simp only [liftE, bindP]
    rw [readU16_of_len _ (by simp [List.length_take, List.length_drop]; omega)]
    simp only [liftO, bindP]
    rw [getByteSlice_err l 22 23 (by omega)]
    exact ⟨23, rfl⟩
  · left
    refine ⟨h23, ?_⟩
    unfold HeapTupleHeaderData.decode
    rw [getByteSlice_ok l 0 4 (by omega) (by omega)]
    simp only [liftE, bindP]
    rw [readU32_of_len _ (by simp [List.length_take, List.length_drop]; omega)]
    simp only [liftO, bindP]
    rw [getByteSlice_ok l 4 8 (by omega) (by omega)]
    simp only [liftE, bindP]
    rw [readU32_of_len _ (by simp [List.length_take, List.length_drop]; omega)]
    simp only [liftO, bindP]
    rw [getByteSlice_ok l 8 12 (by omega) (by omega)]
    simp only [liftE, bindP]
    rw [readU32_of_len _ (by simp [List.length_take, List.length_drop]; omega)]
    simp only [liftO, bindP]
    rw [getByteSlice_ok l 12 18 (by omega) (by omega)]
    simp only [liftE, bindP]
    obtain ⟨v, hv⟩ := itemPointerDecode_of_len ((l.drop 12).take (18 - 12))
      (by simp [List.length_take, List.length_drop]; omega)
    rw [hv]
    simp only [pureP, bindP]
    rw [getByteSlice_ok l 18 20 (by omega) (by omega)]
    simp only [liftE, bindP]
    rw [readU16_of_len _ (by simp [List.length_take, List.length_drop]; omega)]
    simp only [liftO, bindP]
    rw [getByteSlice_ok l 20 22 (by omega) (by omega)]
    simp only [liftE, bindP]
    rw [readU16_of_len _ (by simp [List.length_take, List.length_drop]; omega)]
    simp only [liftO, bindP]
    rw [getByteSlice_ok l 22 23 (by omega) (by omega)]
    simp only [liftE, bindP]
    rw [readU8_of_len _ (by simp [List.length_take, List.length_drop]; omega)]
    simp only [liftO, bindP]
    rw [if_pos h23]
    exact ⟨_, rfl⟩

theorem step_shape (p : PageLazy) (c : Nat) :
    p.step c = some none ∨
    (∃ x y, p.step c = some (some (.error (.byteEncoding (.notEnoughBytes x y)), c))) ∨
    (∃ v : ItemIdData × HeapTupleHeaderData,
      p.step c = some (some (.ok v, add16 c ItemIdData.byteSize)) ∧
      sub16 v.1.lp_off PageHeaderData.byteSize ≤
        add16 (sub16 v.1.lp_off PageHeaderData.byteSize) v.1.lp_len ∧
      add16 (sub16 v.1.lp_off PageHeaderData.byteSize) v.1.lp_len ≤ p.data.length) := by
  unfold PageLazy.step
  by_cases hend : c ≥ sub16 p.header_data.pd_lower PageHeaderData.byteSize
  · rw [if_pos hend]
    exact Or.inl rfl
  rw [if_neg hend]
  by_cases hsl : c ≤ add16 c ItemIdData.byteSize ∧
      add16 c ItemIdData.byteSize ≤ p.data.length
  · rw [getByteSlice_ok _ _ _ hsl.1 hsl.2]
    dsimp only
    have hadd : add16 c ItemIdData.byteSize = c + 4 := by
      obtain ⟨ha, _⟩ := hsl
      simp only [add16, ItemIdData.byteSize] at ha ⊢
      omega
    have hlen4 : ((p.data.drop c).take (add16 c ItemIdData.byteSize - c)).length = 4 := by
      rw [hadd]
      simp [List.length_take, List.length_drop]
      obtain ⟨_, hb⟩ := hsl
      rw [hadd] at hb
      omega
    unfold ItemIdData.decode
    rw [if_pos hlen4]
    dsimp only [pureP]
    by_cases htb : sub16 (ItemIdData.lp_off ⟨fromLE ((p.data.drop c).take
        (add16 c ItemIdData.byteSize - c))⟩) PageHeaderData.byteSize ≤
        add16 (sub16 (ItemIdData.lp_off ⟨fromLE ((p.data.drop c).take
          (add16 c ItemIdData.byteSize - c))⟩) PageHeaderData.byteSize)
          (ItemIdData.lp_len ⟨fromLE ((p.data.drop c).take
            (add16 c ItemIdData.byteSize - c))⟩) ∧
        add16 (sub16 (ItemIdData.lp_off ⟨fromLE ((p.data.drop c).take
          (add16 c ItemIdData.byteSize - c))⟩) PageHeaderData.byteSize)
          (ItemIdData.lp_len ⟨fromLE ((p.data.drop c).take
            (add16 c ItemIdData.byteSize - c))⟩) ≤ p.data.length
    · rw [getByteSlice_ok _ _ _ htb.1 htb.2]
      dsimp only
      rcases heapDecode_master ((p.data.drop (sub16 (ItemIdData.lp_off
          ⟨fromLE ((p.data.drop c).take (add16 c ItemIdData.byteSize - c))⟩)
          PageHeaderData.byteSize)).take
          (add16 (sub16 (ItemIdData.lp_off ⟨fromLE ((p.data.drop c).take
            (add16 c ItemIdData.byteSize - c))⟩) PageHeaderData.byteSize)
            (ItemIdData.lp_len ⟨fromLE ((p.data.drop c).take
              (add16 c ItemIdData.byteSize - c))⟩) -
            sub16 (ItemIdData.lp_off ⟨fromLE ((p.data.drop c).take
              (add16 c ItemIdData.byteSize - c))⟩) PageHeaderData.byteSize))
        with ⟨_, t, ht⟩ | ⟨_, x, hx⟩
      · rw [ht]
        exact Or.inr (Or.inr ⟨_, rfl, htb.1, htb.2⟩)
      · rw [hx]
        exact Or.inr (Or.inl ⟨_, _, rfl⟩)
    · rw [getByteSlice_err _ _ _ htb]
      dsimp only
      exact Or.inr (Or.inl ⟨_, _, rfl⟩)
  · rw [getByteSlice_err _ _ _ hsl]
    dsimp only
    exact Or.inr (Or.inl ⟨_, _, rfl⟩)

/-- A lazy page whose single slot has `lp_off = 0`: the iterator's offset
subtraction wraps and the tuple slice is out of bounds, so the step fails. -/
def pgStuck : PageLazy := ⟨⟨⟨0, 0⟩, 0, 0, 28, 8192, 8192, 8196, 0⟩, [0, 0, 0, 0]⟩

/-- C2 counterexample: on a page with one all-zero slot
(`pd_lower = 28`, so the slot area is 4 bytes), the iterator step at cursor
0 yields an error item and leaves the cursor at 0 instead of advancing it
by 4; two driven steps therefore repeat the same error item with the
cursor still 0, while the claim's count `(28 − 24) / 4` is 1. -/
theorem c2_counterexample_error_step :
    PageLazy.step pgStuck 0 =
      some (some (.error (.byteEncoding (.notEnoughBytes 65512 4)), 0)) ∧
    PageLazy.collect pgStuck 0 2 =
      some ([.error (.byteEncoding (.notEnoughBytes 65512 4)),
             .error (.byteEncoding (.notEnoughBytes 65512 4))], 0) ∧
    (28 - 24) / 4 = 1 :=
  ⟨rfl, rfl, rfl⟩

/-- C2 (amended): the cursor starts at 0 and advances by one 4-byte
line-pointer width per successful step only — a failing step leaves the
cursor unchanged, repeating the same error item forever — so when every
step succeeds and `pd_lower − 24` is a multiple of 4, the sequence
contains exactly `(pd_lower − 24) / 4` items, all pairs, and then
terminates with the cursor at `pd_lower − 24`. -/
theorem c2_lazy_iter_count (p : PageLazy) (k : Nat)
    (hlow : 24 ≤ p.header_data.pd_lower) (hup : p.header_data.pd_lower < 65536)
    (hk : 4 * k = p.header_data.pd_lower - 24)
    (hsucc : ∀ i < k, ∃ v c2, p.step (4 * i) = some (some (.ok v, c2))) :
    ∃ items, p.collect 0 (k + 1) = some (items, 4 * k) ∧
      items.length = k ∧
      (∀ it ∈ items, ∃ v, it = .ok v) ∧
      p.step (4 * k) = some none := by
  have hbound : sub16 p.header_data.pd_lower PageHeaderData.byteSize = 4 * k := by
    simp only [sub16, PageHeaderData.byteSize]
    omega
  have hterm : p.step (4 * k) = some none := by
    unfold PageLazy.step
    rw [if_pos (by rw [hbound])]
  have main : ∀ n i, i + n = k →
      ∃ items, p.collect (4 * i) (n + 1) = some (items, 4 * k) ∧
        items.length = n ∧ (∀ it ∈ items, ∃ v, it = .ok v) := by
    intro n
    induction n with
    | zero =>
      intro i hi
      have hik : i = k := by omega
      subst hik
      refine ⟨[], ?_, rfl, by simp⟩
      simp only [PageLazy.collect]
      simp only [collectWith, hterm]
    | succ n ihn =>
      intro i hi
      have hik : i < k := by omega
      obtain ⟨v, c2, hv⟩ := hsucc i hik
      have hc2 : add16 (4 * i) ItemIdData.byteSize = 4 * (i + 1) := by
        simp only [add16, ItemIdData.byteSize]
        omega
      rcases step_shape p (4 * i) with hs | ⟨x, y, hs⟩ | ⟨v2, hs, _, _⟩
      · rw [hs] at hv
        exact absurd hv (by simp)
      · rw [hs] at hv
        exact absurd hv (by simp)
      · rw [hs] at hv
        have hveq : v2 = v ∧ add16 (4 * i) ItemIdData.byteSize = c2 := by
          simpa using hv
        have hstep2 : p.step (4 * i) = some (some (.ok v, 4 * (i + 1))) := by
          rw [hs, hveq.1, hc2]
        obtain ⟨items, hcol, hlen, hok⟩ := ihn (i + 1) (by omega)
        refine ⟨.ok v :: items, ?_, by simp [hlen], ?_⟩
        · simp only [PageLazy.collect] at hcol ⊢
          rw [collectWith, hstep2]
          dsimp only
          rw [hcol]
        · intro it hit
          rcases List.mem_cons.1 hit with h | h
          · exact ⟨v, h⟩
          · exact hok it h
  obtain ⟨items, hcol, hlen, hok⟩ := main k 0 (by omega)
  exact ⟨items, hcol, hlen, hok, hterm⟩

/-- A well-formed one-slot lazy page: `pd_lower = 28`, the slot has
`lp_off = 24`, state Normal, `lp_len = 23`, and the 23-byte body holds the
slot bytes followed by zeros, so the single tuple decodes. -/
def pgOneSlot : PageLazy :=
  ⟨⟨⟨0, 0⟩, 0, 0, 28, 8192, 8192, 8196, 0⟩, [24, 128, 46, 0] ++ List.replicate 19 0⟩

/-- C2 witness: the count theorem instantiated on the one-slot page. -/
theorem c2_lazy_iter_count_witness :
    ∃ items, pgOneSlot.collect 0 2 = some (items, 4) ∧
      items.length = 1 ∧
      (∀ it ∈ items, ∃ v, it = .ok v) ∧
      pgOneSlot.step 4 = some none := by
  have h := c2_lazy_iter_count pgOneSlot 1 (by decide) (by decide) (by decide)
    (by
      intro i hi
      have hi0 : i = 0 := by omega
      subst hi0
      exact ⟨_, _, rfl⟩)
  simpa using h

theorem chunks_shape : ∀ l : List Nat,
    (l.length % 4 = 0 ∧ ∃ slots, decodeItemIdChunks l = pureP slots) ∨
    (l.length % 4 ≠ 0 ∧ decodeItemIdChunks l = none)
  | [] => Or.inl ⟨rfl, [], rfl⟩
  | [a] => Or.inr ⟨by simp, rfl⟩
  | [a, b] => Or.inr ⟨by simp, rfl⟩
  | [a, b, c] => Or.inr ⟨by simp, rfl⟩
  | a :: b :: c :: d :: rest => by
    rcases chunks_shape rest with ⟨hm, slots, hs⟩ | ⟨hm, hs⟩
    · refine Or.inl ⟨by simp [Nat.add_mod, hm], ⟨fromLE [a, b, c, d]⟩ :: slots, ?_⟩
      simp [decodeItemIdChunks, ItemIdData.decode, bindP, pureP, hs]
    · refine Or.inr ⟨by simp [Nat.add_mod]; omega, ?_⟩
      simp [decodeItemIdChunks, ItemIdData.decode, bindP, pureP, hs]

theorem decodeItemsLoop_cons_normal (body : List Nat) (i : ItemIdData)
    (rest : List ItemIdData) (hn : i.is_normal) :
    decodeItemsLoop body (i :: rest) =
      bindP (liftE (getByteSlice body (sub64 i.lp_off 24)
        (add64 (sub64 i.lp_off 24) i.lp_len))) fun tb =>
      bindP (HeapTupleHeaderData.decode tb) fun t =>
      bindP (decodeItemsLoop body rest) fun ts =>
      pureP (t :: ts) := by
  simp only [decodeItemsLoop, hn, not_true_eq_false, if_false]

theorem decodeItemsLoop_cons_skip (body : List Nat) (i : ItemIdData)
    (rest : List ItemIdData) (hn : ¬ i.is_normal) :
    decodeItemsLoop body (i :: rest) = decodeItemsLoop body rest := by
  simp only [decodeItemsLoop, hn]
  simp

theorem decodeItemsLoop_nil (body : List Nat) : decodeItemsLoop body [] = pureP [] := rfl

theorem bindP_liftE_ok {a b : Type} (v : a) (f : a → PRes b) :
    bindP (liftE (.ok v)) f = f v := rfl

theorem bindP_liftE_err {a b : Type} (e : ByteEncodeError) (f : a → PRes b) :
    bindP (liftE (.error e)) f = some (.error e) := rfl

theorem bindP_pureP {a b : Type} (v : a) (f : a → PRes b) :
    bindP (pureP v) f = f v := rfl

theorem bindP_some_ok {a b : Type} (v : a) (f : a → PRes b) :
    bindP (some (.ok v)) f = f v := rfl

theorem bindP_some_err {a b : Type} (e : ByteEncodeError) (f : a → PRes b) :
    bindP (some (.error e)) f = some (.error e) := rfl

theorem bindP_none {a b : Type} (f : a → PRes b) :
    bindP (none : PRes a) f = none := rfl

section

attribute [local irreducible] HeapTupleHeaderData.decode decodeItemsLoop
  getByteSlice liftE pureP bindP ItemIdData.decode

theorem itemsLoop_shape (body : List Nat) (slots : List ItemIdData) :
    (∃ items, decodeItemsLoop body slots = pureP items) ∨
    (∃ x y, decodeItemsLoop body slots = some (.error (.notEnoughBytes x y))) := by
  induction slots with
  | nil => exact Or.inl ⟨[], decodeItemsLoop_nil body⟩
  | cons i rest ih =>
    by_cases hn : i.is_normal
    · rw [decodeItemsLoop_cons_normal body i rest hn]
      by_cases hsl : sub64 i.lp_off 24 ≤ add64 (sub64 i.lp_off 24) i.lp_len ∧
          add64 (sub64 i.lp_off 24) i.lp_len ≤ body.length
      · rw [getByteSlice_ok body _ _ hsl.1 hsl.2, bindP_liftE_ok]
        rcases heapDecode_master ((body.drop (sub64 i.lp_off 24)).take
            (add64 (sub64 i.lp_off 24) i.lp_len - sub64 i.lp_off 24)) with
          ⟨_, t, ht⟩ | ⟨_, x, hx⟩
        · rw [ht, bindP_some_ok]
          rcases ih with ⟨items, hr⟩ | ⟨x, y, hr⟩
          · rw [hr, bindP_pureP]
            exact Or.inl ⟨t :: items, rfl⟩
          · rw [hr, bindP_some_err]
            exact Or.inr ⟨x, y, rfl⟩
        · rw [hx, bindP_some_err]
          exact Or.inr ⟨_, _, rfl⟩
      · rw [getByteSlice_err body _ _ hsl, bindP_liftE_err]
        exact Or.inr ⟨_, _, rfl⟩
    · rw [decodeItemsLoop_cons_skip body i rest hn]
      exact ih

end

theorem vecItemIdDecode_misaligned (l : List Nat) (h : l.length % 4 ≠ 0) :
    vecItemIdDecode l = some (.error (.invalidSize 4 l.length)) := by
  simp [vecItemIdDecode, h, liftE]

theorem vecItemIdDecode_aligned (l : List Nat) (h : l.length % 4 = 0) :
    vecItemIdDecode l = decodeItemIdChunks l := by
  simp [vecItemIdDecode, h]

theorem fromParts_eq (h : PageHeaderData) (body : List Nat) :
    Page.fromParts h body =
      bindP (liftE (getByteSlice body 0 (sub64 h.pd_lower 24))) fun slotBytes =>
      bindP (vecItemIdDecode slotBytes) fun slots =>
      bindP (decodeItemsLoop body slots) fun items =>
      pureP ⟨h, slots, items, none⟩ := rfl

section

attribute [local irreducible] HeapTupleHeaderData.decode decodeItemsLoop
  getByteSlice liftE pureP bindP ItemIdData.decode vecItemIdDecode
  decodeItemIdChunks

theorem fromParts_shape (h : PageHeaderData) (body : List Nat) :
    (∃ pg, Page.fromParts h body = pureP pg) ∨
    (∃ x y, Page.fromParts h body = some (.error (.notEnoughBytes x y))) ∨
    (∃ x y, Page.fromParts h body = some (.error (.invalidSize x y))) := by
  rw [fromParts_eq]
  by_cases hsl : 0 ≤ sub64 h.pd_lower 24 ∧ sub64 h.pd_lower 24 ≤ body.length
  · rw [getByteSlice_ok body _ _ hsl.1 hsl.2, bindP_liftE_ok]
    by_cases hm : ((body.drop 0).take (sub64 h.pd_lower 24 - 0)).length % 4 = 0
    · rw [vecItemIdDecode_aligned _ hm]
      rcases chunks_shape ((body.drop 0).take (sub64 h.pd_lower 24 - 0)) with
        ⟨_, slots, hs⟩ | ⟨hm2, _⟩
      · rw [hs, bindP_pureP]
        rcases itemsLoop_shape body slots with ⟨items, hr⟩ | ⟨x, y, hr⟩
        · rw [hr, bindP_pureP]
          exact Or.inl ⟨_, rfl⟩
        · rw [hr, bindP_some_err]
          exact Or.inr (Or.inl ⟨x, y, rfl⟩)
      · exact absurd hm hm2
    · rw [vecItemIdDecode_misaligned _ hm, bindP_some_err]
      exact Or.inr (Or.inr ⟨_, _, rfl⟩)
  · rw [getByteSlice_err body _ _ hsl, bindP_liftE_err]
    exact Or.inr (Or.inl ⟨_, _, rfl⟩)

end

/-- A lazy page whose `pd_lower` (300) points past the end of its 232-byte
body, so the allocator's slot-write slice `[300, 306)` is out of bounds. -/
def pgBadLower : PageLazy :=
  ⟨⟨⟨0, 0⟩, 0, 0, 300, 500, 8192, 8196, 0⟩, List.replicate 232 0⟩

set_option maxRecDepth 4000 in
/-- C3 counterexample: with 200 bytes between `pd_lower` and `pd_upper` the
size check passes, the slot-write slice `[300, 306)` lies outside the
232-byte body — yet `PageLazy::reserve_tuple` reports plain "no space"
(`None`, via `.ok()?`), not an insufficient-bytes error. -/
theorem c3_counterexample_alloc_oob :
    PageLazy.reserveTuple pgBadLower 0 = some none ∧
    pgBadLower.data.length = 232 ∧
    add16 pgBadLower.header_data.pd_lower ItemPointerData.byteSize = 306 := by
  refine ⟨rfl, by decide, by decide⟩

/-- C3 (amended): under release (wrapping) integer semantics, (1) a lazy
iterator step never panics; (2) every step either yields an error item
that is an insufficient-bytes error with the cursor left unchanged, or a
pair whose tuple slice was in bounds, with the cursor advanced — so an
out-of-bounds slot or tuple slice always surfaces as insufficient-bytes;
(3) eager page decode never panics and fails only with insufficient-bytes
or misaligned-size errors; (4) the lazy allocator, by contrast, converts
an out-of-bounds slot-write slice into a "no space" `None` result instead
of an insufficient-bytes error (in a debug build the offset subtractions
would panic on underflow instead of wrapping). -/
theorem c3_oob_slice_handling :
    (∀ (p : PageLazy) (c : Nat), p.step c ≠ none) ∧
    (∀ (p : PageLazy) (c : Nat)
      (r : Except PgError (ItemIdData × HeapTupleHeaderData)) (c2 : Nat),
      p.step c = some (some (r, c2)) →
      (∃ x y, r = .error (.byteEncoding (.notEnoughBytes x y)) ∧ c2 = c) ∨
      (∃ v : ItemIdData × HeapTupleHeaderData, r = .ok v ∧
        c2 = add16 c ItemIdData.byteSize ∧
        sub16 v.1.lp_off PageHeaderData.byteSize ≤
          add16 (sub16 v.1.lp_off PageHeaderData.byteSize) v.1.lp_len ∧
        add16 (sub16 v.1.lp_off PageHeaderData.byteSize) v.1.lp_len ≤ p.data.length)) ∧
    (∀ (h : PageHeaderData) (body : List Nat),
      Page.fromParts h body ≠ none ∧
      ∀ e, Page.fromParts h body = some (.error e) →
        (∃ x y, e = .notEnoughBytes x y) ∨ (∃ x y, e = .invalidSize x y)) ∧
    (∀ (p : PageLazy) (ds : Nat),
      ¬ (sub16 p.header_data.pd_upper p.header_data.pd_lower <
          add16 (add16 HeapTupleHeaderData.byteSize ds) ItemPointerData.byteSize) →
      ¬ (p.header_data.pd_lower ≤
            add16 p.header_data.pd_lower ItemPointerData.byteSize ∧
          add16 p.header_data.pd_lower ItemPointerData.byteSize ≤ p.data.length) →
      p.reserveTuple ds = some none) := by
  refine ⟨?_, ?_, ?_, ?_⟩
  · intro p c
    rcases step_shape p c with hs | ⟨x, y, hs⟩ | ⟨v, hs, _, _⟩ <;> simp [hs]
  · intro p c r c2 h
    rcases step_shape p c with hs | ⟨x, y, hs⟩ | ⟨v, hs, b1, b2⟩
    · rw [hs] at h
      exact absurd h (by simp)
    · rw [hs] at h
      have hre : r = .error (.byteEncoding (.notEnoughBytes x y)) ∧ c2 = c := by
        have h2 := h.symm
        simp only [Option.some.injEq, Prod.mk.injEq] at h2
        exact h2
      exact Or.inl ⟨x, y, hre.1, hre.2⟩
    · rw [hs] at h
      have hre : r = .ok v ∧ c2 = add16 c ItemIdData.byteSize := by
        have h2 := h.symm
        simp only [Option.some.injEq, Prod.mk.injEq] at h2
        exact h2
      exact Or.inr ⟨v, hre.1, hre.2, b1, b2⟩
  · intro h body
    rcases fromParts_shape h body with ⟨pg, hs⟩ | ⟨x, y, hs⟩ | ⟨x, y, hs⟩ <;>
      rw [hs]
    · exact ⟨by simp [pureP], fun e he => by simp [pureP] at he⟩
    · refine ⟨by simp, fun e he => ?_⟩
      simp only [Option.some.injEq, Except.error.injEq] at he
      exact Or.inl ⟨x, y, he.symm⟩
    · refine ⟨by simp, fun e he => ?_⟩
      simp only [Option.some.injEq, Except.error.injEq] at he
      exact Or.inr ⟨x, y, he.symm⟩
  · intro p ds hfit hoob
    unfold PageLazy.reserveTuple
    rw [if_neg hfit]
    dsimp only
    rw [getByteSlice_err _ _ _ hoob]

set_option maxRecDepth 8000 in
/-- C3 witness: the conjuncts instantiated — the stuck page's failing step
is an insufficient-bytes error item at an unmoved cursor, eager decode of
a short body fails with insufficient-bytes, and the bad-lower page's
allocator call returns `None`. -/
theorem c3_oob_slice_handling_witness :
    pgStuck.step 0 ≠ none ∧
    ((∃ x y, (Except.error (PgError.byteEncoding (.notEnoughBytes 65512 4)) :
        Except PgError (ItemIdData × HeapTupleHeaderData)) =
          .error (.byteEncoding (.notEnoughBytes x y)) ∧ (0 : Nat) = 0) ∨
      (∃ v : ItemIdData × HeapTupleHeaderData,
        (Except.error (PgError.byteEncoding (.notEnoughBytes 65512 4)) :
          Except PgError (ItemIdData × HeapTupleHeaderData)) = .ok v ∧
        (0 : Nat) = add16 0 ItemIdData.byteSize ∧
        sub16 v.1.lp_off PageHeaderData.byteSize ≤
          add16 (sub16 v.1.lp_off PageHeaderData.byteSize) v.1.lp_len ∧
        add16 (sub16 v.1.lp_off PageHeaderData.byteSize) v.1.lp_len ≤
          pgStuck.data.length)) ∧
    ((∃ x y, (ByteEncodeError.notEnoughBytes 1 0) = .notEnoughBytes x y) ∨
      (∃ x y, (ByteEncodeError.notEnoughBytes 1 0) = .invalidSize x y)) ∧
    pgBadLower.reserveTuple 0 = some none := by
  obtain ⟨c1, c2, c3, c4⟩ := c3_oob_slice_handling
  refine ⟨c1 pgStuck 0, c2 pgStuck 0 _ 0 rfl, ?_, c4 pgBadLower 0 (by decide) (by decide)⟩
  exact (c3 ⟨⟨0, 0⟩, 0, 0, 25, 8192, 8192, 8196, 0⟩ []).2 _ rfl

/-- A slot is within bounds for a page body: its tuple lies at or after the
header, the slice fits in the body, and it is long enough for the 23-byte
tuple prefix. -/
def wfSlot (body : List Nat) (i : ItemIdData) : Prop :=
  24 ≤ i.lp_off ∧ i.lp_off - 24 + i.lp_len ≤ body.length ∧ 23 ≤ i.lp_len

/-- The tuple a well-formed slot decodes to from a page body (an arbitrary
value when the decode does not succeed). -/
def decodedTuple (body : List Nat) (i : ItemIdData) : HeapTupleHeaderData :=
  match HeapTupleHeaderData.decode ((body.drop (i.lp_off - 24)).take i.lp_len) with
  | some (.ok t) => t
  | _ => ⟨0, 0, 0, ⟨⟨0, 0⟩, 0⟩, 0, 0, 0, []⟩

theorem lp_off_lt (i : ItemIdData) : i.lp_off < 32768 :=
  Nat.mod_lt _ (by omega)

theorem lp_len_lt (i : ItemIdData) : i.lp_len < 32768 :=
  Nat.mod_lt _ (by omega)

theorem decode_wfSlot_slice (body : List Nat) (i : ItemIdData)
    (hw : wfSlot body i) :
    HeapTupleHeaderData.decode ((body.drop (i.lp_off - 24)).take i.lp_len) =
      pureP (decodedTuple body i) := by
  obtain ⟨h1, h2, h3⟩ := hw
  have hlen : ((body.drop (i.lp_off - 24)).take i.lp_len).length = i.lp_len := by
    simp [List.length_take, List.length_drop]
    omega
  rcases heapDecode_master ((body.drop (i.lp_off - 24)).take i.lp_len) with
    ⟨_, t, ht⟩ | ⟨hs, _, _⟩
  · rw [ht]
    unfold decodedTuple
    rw [ht]
    rfl
  · rw [hlen] at hs
    omega

theorem chunks_of_take (m : Nat) (l : List Nat) (hm : 4 * m ≤ l.length) :
    ∃ slots : List ItemIdData, decodeItemIdChunks (l.take (4 * m)) = pureP slots ∧
      slots.length = m ∧
      ∀ j, j < m → slots[j]? = some ⟨fromLE ((l.drop (4 * j)).take 4)⟩ := by
  induction m generalizing l with
  | zero => exact ⟨[], by simp [decodeItemIdChunks, pureP], rfl, by omega⟩
  | succ m ihm =>
    rcases l with _ | ⟨a, _ | ⟨b, _ | ⟨c, _ | ⟨d, l4⟩⟩⟩⟩ <;>
      simp only [List.length_nil, List.length_cons] at hm <;> try omega
    obtain ⟨slots, hdec, hlen, hget⟩ := ihm l4 (by omega)
    refine ⟨⟨fromLE [a, b, c, d]⟩ :: slots, ?_, by simp [hlen], ?_⟩
    · have htake : (a :: b :: c :: d :: l4).take (4 * (m + 1)) =
          a :: b :: c :: d :: l4.take (4 * m) := by
        have : 4 * (m + 1) = 4 * m + 4 := by ring
        simp [this, List.take_succ_cons]
      rw [htake]
      show bindP (ItemIdData.decode [a, b, c, d]) _ = _
      have hd4 : ItemIdData.decode [a, b, c, d] = pureP ⟨fromLE [a, b, c, d]⟩ := by
        simp [ItemIdData.decode]
      rw [hd4, bindP_pureP, hdec, bindP_pureP]
    · intro j hj
      match j with
      | 0 => simp
      | j + 1 =>
        have hd : (a :: b :: c :: d :: l4).drop (4 * (j + 1)) = l4.drop (4 * j) := by
          have : 4 * (j + 1) = 4 * j + 4 := by ring
          simp [this, List.drop_succ_cons]
        simp only [List.getElem?_cons_succ, hd]
        exact hget j (by omega)

theorem itemsLoop_wf (body : List Nat) (slots : List ItemIdData)
    (hw : ∀ i ∈ slots, wfSlot body i) :
    decodeItemsLoop body slots =
      pureP ((slots.filter (fun i => i.is_normal)).map
        (fun i => decodedTuple body i)) := by
  induction slots with
  | nil => simp [decodeItemsLoop_nil]
  | cons i rest ih =>
    have hwi := hw i (List.mem_cons_self i rest)
    have hwr : ∀ x ∈ rest, wfSlot body x := fun x hx => hw x (List.mem_cons_of_mem i hx)
    obtain ⟨hw1, hw2, hw3⟩ := hwi
    have hwi : wfSlot body i := ⟨hw1, hw2, hw3⟩
    have hoff := lp_off_lt i
    have hlen := lp_len_lt i
    by_cases hn : i.is_normal
    · rw [decodeItemsLoop_cons_normal body i rest hn]
      have e1 : sub64 i.lp_off 24 = i.lp_off - 24 := by
        simp only [sub64]
        omega
      have e2 : add64 (i.lp_off - 24) i.lp_len = i.lp_off - 24 + i.lp_len := by
        simp only [add64]
        omega
      rw [e1, e2]
      have hok : getByteSlice body (i.lp_off - 24) (i.lp_off - 24 + i.lp_len) =
          .ok ((body.drop (i.lp_off - 24)).take i.lp_len) := by
        rw [getByteSlice_ok _ _ _ (by omega) hwi.2.1]
        have e3 : i.lp_off - 24 + i.lp_len - (i.lp_off - 24) = i.lp_len := by omega
        rw [e3]
      rw [hok, bindP_liftE_ok, decode_wfSlot_slice body i hwi, bindP_pureP,
        ih hwr, bindP_pureP]
      simp [List.filter_cons, hn]
    · rw [decodeItemsLoop_cons_skip body i rest hn, ih hwr]
      simp [List.filter_cons, hn]

theorem step_of_wf (p : PageLazy) (c : Nat)
    (hl2 : p.header_data.pd_lower < 65536)
    (hc : c + 4 ≤ p.header_data.pd_lower - 24)
    (hsb : p.header_data.pd_lower - 24 ≤ p.data.length)
    (hw : wfSlot p.data ⟨fromLE ((p.data.drop c).take 4)⟩) :
    p.step c = some (some (.ok (⟨fromLE ((p.data.drop c).take 4)⟩,
      decodedTuple p.data ⟨fromLE ((p.data.drop c).take 4)⟩), add16 c 4)) := by
  unfold PageLazy.step
  have hbound : sub16 p.header_data.pd_lower PageHeaderData.byteSize =
      p.header_data.pd_lower - 24 := by
    simp only [sub16, PageHeaderData.byteSize]
    omega
  rw [hbound, if_neg (show ¬ c ≥ p.header_data.pd_lower - 24 by omega)]
  have ha4 : add16 c ItemIdData.byteSize = c + 4 := by
    simp only [add16, ItemIdData.byteSize]
    omega
  rw [ha4, getByteSlice_ok p.data c (c + 4) (by omega) (by omega)]
  have e0 : c + 4 - c = 4 := by omega
  rw [e0]
  dsimp only
  have hd4 : ItemIdData.decode ((p.data.drop c).take 4) =
      pureP ⟨fromLE ((p.data.drop c).take 4)⟩ := by
    unfold ItemIdData.decode
    rw [if_pos]
    simp [List.length_take, List.length_drop]
    omega
  rw [hd4]
  dsimp only [pureP]
  have hoff := lp_off_lt (⟨fromLE ((p.data.drop c).take 4)⟩ : ItemIdData)
  have hlen := lp_len_lt (⟨fromLE ((p.data.drop c).take 4)⟩ : ItemIdData)
  have e1 : sub16 (ItemIdData.lp_off ⟨fromLE ((p.data.drop c).take 4)⟩)
      PageHeaderData.byteSize =
      ItemIdData.lp_off ⟨fromLE ((p.data.drop c).take 4)⟩ - 24 := by
    simp only [sub16, PageHeaderData.byteSize]
    have := hw.1
    omega
  rw [e1]
  have e2 : add16 (ItemIdData.lp_off ⟨fromLE ((p.data.drop c).take 4)⟩ - 24)
      (ItemIdData.lp_len ⟨fromLE ((p.data.drop c).take 4)⟩) =
      ItemIdData.lp_off ⟨fromLE ((p.data.drop c).take 4)⟩ - 24 +
        ItemIdData.lp_len ⟨fromLE ((p.data.drop c).take 4)⟩ := by
    simp only [add16]
    omega
  rw [e2, getByteSlice_ok p.data _ _ (by omega) hw.2.1]
  have e3 : ItemIdData.lp_off ⟨fromLE ((p.data.drop c).take 4)⟩ - 24 +
      ItemIdData.lp_len ⟨fromLE ((p.data.drop c).take 4)⟩ -
      (ItemIdData.lp_off ⟨fromLE ((p.data.drop c).take 4)⟩ - 24) =
      ItemIdData.lp_len ⟨fromLE ((p.data.drop c).take 4)⟩ := by omega
  rw [e3]
  dsimp only
  rw [decode_wfSlot_slice p.data _ hw]
  dsimp only [pureP]
  rw [show add16 c 4 = c + 4 from ha4]

/-- C6: for a well-formed lazy page — slot array of `k` 4-byte slots within
the body, every slot's tuple slice in bounds and at least 23 bytes — the
lazy iterator yields exactly one `(line pointer, tuple)` pair per slot in
slot order, and the eager decode of the same header and body produces
field-for-field the same line pointers, with its tuple list equal to the
lazily decoded tuples of the Normal slots in the same order. -/
theorem c6_lazy_eager_equiv (p : PageLazy) (k : Nat)
    (hl1 : 24 ≤ p.header_data.pd_lower) (hl2 : p.header_data.pd_lower < 65536)
    (hk : 4 * k = p.header_data.pd_lower - 24)
    (hsb : p.header_data.pd_lower - 24 ≤ p.data.length)
    (hwf : ∀ j, j < k → wfSlot p.data ⟨fromLE ((p.data.drop (4 * j)).take 4)⟩) :
    ∃ slots : List ItemIdData, slots.length = k ∧
      (∀ j, j < k → slots[j]? = some ⟨fromLE ((p.data.drop (4 * j)).take 4)⟩) ∧
      p.collect 0 (k + 1) =
        some (slots.map (fun i => .ok (i, decodedTuple p.data i)), 4 * k) ∧
      Page.fromParts p.header_data p.data =
        pureP ⟨p.header_data, slots,
          (slots.filter (fun i => i.is_normal)).map (fun i => decodedTuple p.data i),
          none⟩ := by
  obtain ⟨slots, hdec, hslen, hget⟩ := chunks_of_take k p.data (by omega)
  have hwfs : ∀ i ∈ slots, wfSlot p.data i := by
    intro i hi
    obtain ⟨j, hjlt, hval⟩ := List.mem_iff_getElem.1 hi
    have hjk : j < k := by omega
    have h1 := hget j hjk
    rw [List.getElem?_eq_getElem hjlt, hval] at h1
    have h2 : i = (⟨fromLE ((p.data.drop (4 * j)).take 4)⟩ : ItemIdData) := by
      simpa using h1
    rw [h2]
    exact hwf j hjk
  refine ⟨slots, hslen, hget, ?_, ?_⟩
  · have hb2 : sub16 p.header_data.pd_lower PageHeaderData.byteSize =
        p.header_data.pd_lower - 24 := by
      simp only [sub16, PageHeaderData.byteSize]
      omega
    have hterm : p.step (4 * k) = some none := by
      unfold PageLazy.step
      rw [if_pos (by rw [hb2]; omega)]
    have main : ∀ n i2, i2 + n = k →
        collectWith p.step (4 * i2) (n + 1) =
          some ((slots.drop i2).map (fun i => .ok (i, decodedTuple p.data i)),
            4 * k) := by
      intro n
      induction n with
      | zero =>
        intro i2 hi2
        have hik : i2 = k := by omega
        subst hik
        have hde : slots.drop i2 = [] := List.drop_eq_nil_of_le (by omega)
        simp only [collectWith, hterm, hde, List.map_nil]
      | succ n ihn =>
        intro i2 hi2
        have hik : i2 < k := by omega
        have hstep := step_of_wf p (4 * i2) hl2 (by omega) hsb (hwf i2 hik)
        have hc4 : add16 (4 * i2) 4 = 4 * (i2 + 1) := by
          simp only [add16]
          omega
        rw [hc4] at hstep
        have hlt : i2 < slots.length := by omega
        have hcons : slots.drop i2 = slots[i2] :: slots.drop (i2 + 1) :=
          List.drop_eq_getElem_cons hlt
        have hival : slots[i2] = (⟨fromLE ((p.data.drop (4 * i2)).take 4)⟩ : ItemIdData) := by
          have h1 := hget i2 hik
          rw [List.getElem?_eq_getElem hlt] at h1
          simpa using h1
        rw [collectWith, hstep]
        dsimp only
        rw [ihn (i2 + 1) (by omega)]
        rw [hcons, hival]
        simp only [List.map_cons]
    have hm := main k 0 (by omega)
    simp only [PageLazy.collect]
    simpa using hm
  · rw [fromParts_eq]
    have e1 : sub64 p.header_data.pd_lower 24 = 4 * k := by
      simp only [sub64]
      omega
    rw [e1, getByteSlice_ok p.data 0 (4 * k) (by omega) (by omega),
      Nat.sub_zero, List.drop_zero, bindP_liftE_ok]
    have hal : (p.data.take (4 * k)).length % 4 = 0 := by
      simp [List.length_take]
      omega
    rw [vecItemIdDecode_aligned _ hal, hdec, bindP_pureP,
      itemsLoop_wf p.data slots hwfs, bindP_pureP]

/-- C6 witness: the equivalence instantiated on the one-slot page. -/
theorem c6_lazy_eager_equiv_witness :
    ∃ slots : List ItemIdData, slots.length = 1 ∧
      (∀ j, j < 1 → slots[j]? =
        some ⟨fromLE ((pgOneSlot.data.drop (4 * j)).take 4)⟩) ∧
      pgOneSlot.collect 0 (1 + 1) =
        some (slots.map (fun i => .ok (i, decodedTuple pgOneSlot.data i)), 4 * 1) ∧
      Page.fromParts pgOneSlot.header_data pgOneSlot.data =
        pureP ⟨pgOneSlot.header_data, slots,
          (slots.filter (fun i => i.is_normal)).map
            (fun i => decodedTuple pgOneSlot.data i),
          none⟩ :=
  c6_lazy_eager_equiv pgOneSlot 1 (by decide) (by decide) (by decide) (by decide)
    (fun j hj => by
      have hj0 : j = 0 := by omega
      subst hj0
      exact ⟨by decide, by decide, by decide⟩)

/-- The bytes of one stored page: encoded header followed by the body. -/
def encPage (pr : PageHeaderData × List Nat) : List Nat := pr.1.encode ++ pr.2

/-- A well-formed stored page: header fields in range and the declared page
size equal to header size plus body length. -/
abbrev WfPage (pr : PageHeaderData × List Nat) : Prop :=
  pr.1.pd_lsn.xlogid < 4294967296 ∧ pr.1.pd_lsn.xrecoff < 4294967296 ∧
  pr.1.pd_checksum < 65536 ∧ pr.1.pd_flags < 65536 ∧ pr.1.pd_lower < 65536 ∧
  pr.1.pd_upper < 65536 ∧ pr.1.pd_special < 65536 ∧
  pr.1.pd_pagesize_version < 65536 ∧ pr.1.pd_prune_xid < 4294967296 ∧
  pr.1.pageSize = 24 + pr.2.length

/-- Total declared size of a sequence of stored pages. -/
def sumSizes (ps : List (PageHeaderData × List Nat)) : Nat :=
  (ps.map (fun pr => pr.1.pageSize)).sum

/-- Expected result of one `read_next_page_filtered` call on a stream that
holds exactly the given pages from the current position: skip the rejected
prefix (advancing position and cursor by each skipped page's size), then
yield the first accepted page, or end cleanly at end of stream. -/
def rnpfExpected (filt : PageHeaderData → Bool) :
    List (PageHeaderData × List Nat) → ReaderSt →
      Except ByteEncodeError (Option PageLazy) × ReaderSt
  | [], s => (.ok none, ⟨s.data, s.pos, s.cursor, true⟩)
  | (h, body) :: rest, s =>
    if filt h then
      (.ok (some ⟨h, body⟩),
        ⟨s.data, s.pos + h.pageSize, add64 s.cursor h.pageSize, false⟩)
    else
      rnpfExpected filt rest
        ⟨s.data, s.pos + h.pageSize, add64 s.cursor h.pageSize, false⟩

theorem pageSize_le (h : PageHeaderData) : h.pageSize ≤ 65280 :=
  Nat.and_le_right

theorem add64_add64 (a b c : Nat) : add64 (add64 a b) c = add64 a (b + c) := by
  simp only [add64]
  rw [Nat.mod_add_mod, Nat.add_assoc]

theorem rnpf_succ_inl {filt : PageHeaderData → Bool} {fuel : Nat} {s : ReaderSt}
    {r : Except ByteEncodeError (Option PageLazy) × ReaderSt}
    (h : rnpfStep filt s = .inl r) :
    readNextPageFiltered filt (fuel + 1) s = r := by
  simp only [readNextPageFiltered, loopWith, h]

theorem rnpf_succ_inr {filt : PageHeaderData → Bool} {fuel : Nat} {s s2 : ReaderSt}
    (h : rnpfStep filt s = .inr s2) :
    readNextPageFiltered filt (fuel + 1) s = readNextPageFiltered filt fuel s2 := by
  simp only [readNextPageFiltered, loopWith, h]

theorem rnpf_spec (filt : PageHeaderData → Bool) :
    ∀ (ps : List (PageHeaderData × List Nat)) (fuel : Nat) (s : ReaderSt),
    (∀ pr ∈ ps, WfPage pr) → ps.length < fuel → s.ended = false →
    s.data.drop s.pos = (ps.map encPage).flatten →
    readNextPageFiltered filt fuel s = rnpfExpected filt ps s := by
  intro ps
  induction ps with
  | nil =>
    intro fuel s _ hfu hend hdrop
    match fuel, hfu with
    | fuel + 1, _ =>
      have hlen : s.data.length ≤ s.pos := by
        have := congrArg List.length hdrop
        simp [List.length_drop] at this
        omega
      have hre : readExactWithEof s 24 = none := by
        simp [readExactWithEof]
        omega
      have hstep : rnpfStep filt s = .inl (.ok none, ⟨s.data, s.pos, s.cursor, true⟩) := by
        simp only [rnpfStep, hend, Bool.false_eq_true, if_false, hre]
      rw [rnpf_succ_inl hstep]
      rfl
  | cons pr rest ih =>
    intro fuel s hwf hfu hend hdrop
    match fuel, hfu with
    | fuel + 1, hfu2 =>
      obtain ⟨h, body⟩ := pr
      have hw := hwf (h, body) (List.mem_cons_self _ _)
      obtain ⟨w1, w2, w3, w4, w5, w6, w7, w8, w9, w10⟩ := hw
      have w10' : h.pageSize = 24 + body.length := w10
      have hencl : (PageHeaderData.encode h).length = 24 := encode_pageHeader_length h
      have hdrop2 : s.data.drop s.pos = h.encode ++ (body ++ (rest.map encPage).flatten) := by
        rw [hdrop]
        simp [encPage, List.append_assoc]
      have hdlen : 24 + body.length ≤ s.data.length - s.pos := by
        have := congrArg List.length hdrop2
        simp [List.length_drop, hencl] at this
        omega
      have hre : readExactWithEof s 24 =
          some (h.encode, ⟨s.data, s.pos + 24, s.cursor, s.ended⟩) := by
        simp only [readExactWithEof, if_pos (by omega : s.pos + 24 ≤ s.data.length)]
        have htake : (s.data.drop s.pos).take 24 = h.encode := by
          rw [hdrop2]
          exact List.take_left' hencl
        rw [htake]
      have hdec : PageHeaderData.decode h.encode = .ok h :=
        roundtrip_pageHeader h w1 w2 w3 w4 w5 w6 w7 w8 w9
      have hbodydrop : s.data.drop (s.pos + 24) = body ++ (rest.map encPage).flatten := by
        have : s.data.drop (s.pos + 24) = (s.data.drop s.pos).drop 24 := by
          rw [List.drop_drop]
        rw [this, hdrop2]
        exact List.drop_left' hencl
      have hsub : sub64 h.pageSize 24 = body.length := by
        have := pageSize_le h
        simp only [sub64]
        omega
      have hp2 : s.pos + 24 + body.length = s.pos + h.pageSize := by omega
      have hfu3 : rest.length < fuel := by
        simp only [List.length_cons] at hfu2
        omega
      cases hfb : filt h with
      | true =>
        have hrb : readExactWithEof ⟨s.data, s.pos + 24, s.cursor, false⟩ body.length =
            some (body, ⟨s.data, s.pos + 24 + body.length, s.cursor, false⟩) := by
          simp only [readExactWithEof]
          rw [if_pos (by omega)]
          have htake : (s.data.drop (s.pos + 24)).take body.length = body := by
            rw [hbodydrop]
            exact List.take_left' rfl
          rw [htake]
        have hstep : rnpfStep filt s = .inl (.ok (some ⟨h, body⟩),
            ⟨s.data, s.pos + h.pageSize, add64 s.cursor h.pageSize, false⟩) := by
          simp only [rnpfStep, hend, Bool.false_eq_true, if_false, hre, hdec, hsub,
            hfb, not_true, if_false, hrb, hp2]
        rw [rnpf_succ_inl hstep]
        simp only [rnpfExpected, hfb, if_true]
      | false =>
        have hseek : seekRelSigned ⟨s.data, s.pos + 24, s.cursor, false⟩ body.length =
            .ok ⟨s.data, s.pos + 24 + body.length, s.cursor, false⟩ := by
          have := pageSize_le h
          simp only [seekRelSigned]
          rw [if_pos (by omega : body.length < 9223372036854775808)]
        have hstep : rnpfStep filt s = .inr
            ⟨s.data, s.pos + h.pageSize, add64 s.cursor h.pageSize, false⟩ := by
          simp only [rnpfStep, hend, Bool.false_eq_true, if_false, hre, hdec, hsub,
            hfb, not_false_iff, if_true, hseek, hp2]
        have hdrop3 : s.data.drop (s.pos + h.pageSize) = (rest.map encPage).flatten := by
          rw [← hp2, ← List.drop_drop, hbodydrop]
          exact List.drop_left' rfl
        have hrec := ih fuel ⟨s.data, s.pos + h.pageSize, add64 s.cursor h.pageSize, false⟩
          (fun x hx => hwf x (List.mem_cons_of_mem _ hx)) hfu3 rfl hdrop3
        rw [rnpf_succ_inr hstep, hrec]
        simp only [rnpfExpected, hfb, Bool.false_eq_true, if_false]

theorem consume_succ_some {filt : PageHeaderData → Bool} {pf n : Nat} {s s2 : ReaderSt}
    {pg : PageLazy} (h : readNextPageFiltered filt pf s = (.ok (some pg), s2)) :
    consume filt pf (n + 1) s =
      (pg :: (consume filt pf n s2).1, (consume filt pf n s2).2) := by
  simp only [consume, h]

theorem consume_succ_none {filt : PageHeaderData → Bool} {pf n : Nat} {s s2 : ReaderSt}
    (h : readNextPageFiltered filt pf s = (.ok none, s2)) :
    consume filt pf (n + 1) s = ([], s2) := by
  simp only [consume, h]

theorem consume_spec (filt : PageHeaderData → Bool) (pf : Nat) :
    ∀ (ps : List (PageHeaderData × List Nat)) (n : Nat) (s : ReaderSt),
    (∀ pr ∈ ps, WfPage pr) → ps.length < pf →
    (ps.filter (fun pr => filt pr.1)).length < n →
    s.ended = false → s.cursor < 18446744073709551616 →
    s.data.drop s.pos = (ps.map encPage).flatten →
    consume filt pf n s =
      ((ps.filter (fun pr => filt pr.1)).map (fun pr => PageLazy.mk pr.1 pr.2),
        ⟨s.data, s.pos + sumSizes ps, add64 s.cursor (sumSizes ps), true⟩) := by
  intro ps
  induction ps with
  | nil =>
    intro n s _ hpf hn hend hc hdrop
    match n, hn with
    | n + 1, _ =>
      have hv : readNextPageFiltered filt pf s = (.ok none, ⟨s.data, s.pos, s.cursor, true⟩) :=
        rnpf_spec filt [] pf s (by simp) hpf hend hdrop
      rw [consume_succ_none hv]
      have h2 : add64 s.cursor (sumSizes []) = s.cursor := by
        simp only [sumSizes, List.map_nil, List.sum_nil, add64]
        omega
      rw [h2]
      rfl
  | cons pr rest ih =>
    intro n s hwf hpf hn hend hc hdrop
    match n, hn with
    | n + 1, hn2 =>
      obtain ⟨h, body⟩ := pr
      have hw := hwf (h, body) (List.mem_cons_self _ _)
      obtain ⟨w1, w2, w3, w4, w5, w6, w7, w8, w9, w10⟩ := hw
      have w10' : h.pageSize = 24 + body.length := w10
      have hwfr : ∀ x ∈ rest, WfPage x := fun x hx => hwf x (List.mem_cons_of_mem _ hx)
      have hpfr : rest.length < pf := by
        simp only [List.length_cons] at hpf
        omega
      have hencl : (PageHeaderData.encode h).length = 24 := encode_pageHeader_length h
      have hdrop2 : s.data.drop s.pos = h.encode ++ (body ++ (rest.map encPage).flatten) := by
        rw [hdrop]
        simp [encPage, List.append_assoc]
      have hbodydrop : s.data.drop (s.pos + 24) = body ++ (rest.map encPage).flatten := by
        have h24 : s.data.drop (s.pos + 24) = (s.data.drop s.pos).drop 24 := by
          rw [List.drop_drop]
        rw [h24, hdrop2]
        exact List.drop_left' hencl
      have hp2 : s.pos + 24 + body.length = s.pos + h.pageSize := by omega
      have hdrop3 : s.data.drop (s.pos + h.pageSize) = (rest.map encPage).flatten := by
        rw [← hp2, ← List.drop_drop, hbodydrop]
        exact List.drop_left' rfl
      have hcs : add64 s.cursor h.pageSize < 18446744073709551616 := by
        simp only [add64]
        omega
      have hv1 := rnpf_spec filt ((h, body) :: rest) pf s hwf hpf hend hdrop
      have hsum : sumSizes ((h, body) :: rest) = h.pageSize + sumSizes rest := by
        simp [sumSizes]
      cases hfb : filt h with
      | true =>
        have hval : readNextPageFiltered filt pf s = (.ok (some ⟨h, body⟩),
            ⟨s.data, s.pos + h.pageSize, add64 s.cursor h.pageSize, false⟩) := by
          rw [hv1]
          simp only [rnpfExpected, hfb, if_true]
        have hfb' : (fun pr : PageHeaderData × List Nat => filt pr.1) (h, body) = true := hfb
        have hnr : (rest.filter (fun pr => filt pr.1)).length < n := by
          simp only [List.filter_cons, hfb', if_true, List.length_cons] at hn2
          omega
        rw [consume_succ_some hval,
          ih n ⟨s.data, s.pos + h.pageSize, add64 s.cursor h.pageSize, false⟩
            hwfr hpfr hnr rfl hcs hdrop3]
        have hfilt : ((h, body) :: rest).filter (fun pr => filt pr.1) =
            (h, body) :: rest.filter (fun pr => filt pr.1) := by
          simp [List.filter_cons, hfb]
        rw [hfilt, hsum, List.map_cons, add64_add64, Nat.add_assoc]
      | false =>
        have hv2 := rnpf_spec filt rest pf
          ⟨s.data, s.pos + h.pageSize, add64 s.cursor h.pageSize, false⟩ hwfr hpfr rfl hdrop3
        have hval : readNextPageFiltered filt pf s = rnpfExpected filt rest
            ⟨s.data, s.pos + h.pageSize, add64 s.cursor h.pageSize, false⟩ := by
          rw [hv1]
          simp only [rnpfExpected, hfb, Bool.false_eq_true, if_false]
        have heq : consume filt pf (n + 1) s = consume filt pf (n + 1)
            ⟨s.data, s.pos + h.pageSize, add64 s.cursor h.pageSize, false⟩ := by
          simp only [consume]
          rw [hval, hv2]
        have hfb' : (fun pr : PageHeaderData × List Nat => filt pr.1) (h, body) = false := hfb
        have hnr : (rest.filter (fun pr => filt pr.1)).length < n + 1 := by
          simp only [List.filter_cons, hfb', Bool.false_eq_true, if_false] at hn2
          exact hn2
        rw [heq,
          ih (n + 1) ⟨s.data, s.pos + h.pageSize, add64 s.cursor h.pageSize, false⟩
            hwfr hpfr hnr rfl hcs hdrop3]
        have hfilt : ((h, body) :: rest).filter (fun pr => filt pr.1) =
            rest.filter (fun pr => filt pr.1) := by
          simp [List.filter_cons, hfb]
        rw [hfilt, hsum, add64_add64, Nat.add_assoc]

/-- C8: For a byte stream laid out as a back-to-back sequence of well-formed
pages and any header predicate, driving the reader's iterator from the start
of the stream yields exactly the pages whose headers satisfy the predicate,
in original file order, as lazy pages; a rejected page is skipped without
yielding, the position still advancing by its full declared size (the
24-byte header read plus the `page_size - 24` byte seek); and after full
consumption the tracked cursor equals the wrapped sum of the declared sizes
of all pages, accepted and rejected alike — equal to the plain sum whenever
that sum fits in a `u64`. -/
theorem c8_stream_reader (filt : PageHeaderData → Bool)
    (ps : List (PageHeaderData × List Nat)) (pf n : Nat)
    (hwf : ∀ pr ∈ ps, WfPage pr) (hpf : ps.length < pf)
    (hn : (ps.filter (fun pr => filt pr.1)).length < n) :
    consume filt pf n ⟨(ps.map encPage).flatten, 0, 0, false⟩ =
      ((ps.filter (fun pr => filt pr.1)).map (fun pr => PageLazy.mk pr.1 pr.2),
        ⟨(ps.map encPage).flatten, sumSizes ps, wrap64 (sumSizes ps), true⟩) ∧
    (sumSizes ps < 18446744073709551616 →
      (consume filt pf n ⟨(ps.map encPage).flatten, 0, 0, false⟩).2.cursor = sumSizes ps) := by
  have hmain := consume_spec filt pf ps n ⟨(ps.map encPage).flatten, 0, 0, false⟩
    hwf hpf hn rfl (by show (0 : Nat) < 18446744073709551616; omega) (by rfl)
  have hz : (0 : Nat) + sumSizes ps = sumSizes ps := Nat.zero_add _
  have hcz : add64 0 (sumSizes ps) = wrap64 (sumSizes ps) := by
    simp [add64, wrap64]
  rw [hz, hcz] at hmain
  refine ⟨hmain, fun hlt => ?_⟩
  rw [hmain]
  show wrap64 (sumSizes ps) = sumSizes ps
  simp only [wrap64]
  omega

/-- A 256-byte stored page whose header carries `x` in `pd_prune_xid`. -/
def hdrP (x : Nat) : PageHeaderData := ⟨⟨0, 0⟩, 0, 0, 24, 256, 256, 256, x⟩

/-- Five stored pages, distinguished by `pd_prune_xid` 0..4. -/
def ps5 : List (PageHeaderData × List Nat) :=
  [(hdrP 0, List.replicate 232 0), (hdrP 1, List.replicate 232 0),
   (hdrP 2, List.replicate 232 0), (hdrP 3, List.replicate 232 0),
   (hdrP 4, List.replicate 232 0)]

/-- A predicate rejecting the second and fourth of the five pages. -/
def filt5 : PageHeaderData → Bool := fun h => h.pd_prune_xid % 2 == 0

set_option maxRecDepth 4000 in
theorem c8_stream_reader_witness :
    consume filt5 6 4 ⟨(ps5.map encPage).flatten, 0, 0, false⟩ =
      ((ps5.filter (fun pr => filt5 pr.1)).map (fun pr => PageLazy.mk pr.1 pr.2),
        ⟨(ps5.map encPage).flatten, sumSizes ps5, wrap64 (sumSizes ps5), true⟩) ∧
    (consume filt5 6 4 ⟨(ps5.map encPage).flatten, 0, 0, false⟩).2.cursor = sumSizes ps5 :=
  ⟨(c8_stream_reader filt5 ps5 6 4 (by decide) (by decide) (by decide)).1,
   (c8_stream_reader filt5 ps5 6 4 (by decide) (by decide) (by decide)).2 (by decide)⟩

theorem readExactWithEof_state {s : ReaderSt} {c : Nat} {bs : List Nat} {s2 : ReaderSt}
    (h : readExactWithEof s c = some (bs, s2)) :
    s2 = ⟨s.data, s.pos + c, s.cursor, s.ended⟩ := by
  simp only [readExactWithEof] at h
  split at h
  · exact (congrArg Prod.snd (Option.some.inj h)).symm
  · exact Option.noConfusion h

theorem rnpfStep_true_some {s s2 : ReaderSt} {pg : PageLazy}
    (h : rnpfStep (fun _ => true) s = .inl (.ok (some pg), s2)) :
    s2.cursor = add64 s.cursor pg.header_data.pageSize := by
  cases hse : s.ended with
  | true =>
    unfold rnpfStep at h
    rw [hse] at h
    simp at h
  | false =>
    unfold rnpfStep at h
    rw [hse] at h
    simp only [Bool.false_eq_true, if_false] at h
    cases hre1 : readExactWithEof s 24 with
    | none =>
      rw [hre1] at h
      simp at h
    | some p1 =>
      obtain ⟨hb, s1⟩ := p1
      rw [hre1] at h
      dsimp only at h
      cases hdec1 : PageHeaderData.decode hb with
      | error e =>
        rw [hdec1] at h
        simp at h
      | ok h1 =>
        rw [hdec1] at h
        dsimp only at h
        rw [if_neg (by simp)] at h
        cases hre2 : readExactWithEof s1 (sub64 h1.pageSize 24) with
        | none =>
          rw [hre2] at h
          simp at h
        | some p2 =>
          obtain ⟨body, s2'⟩ := p2
          rw [hre2] at h
          dsimp only at h
          have e1 := readExactWithEof_state hre1
          have e2 := readExactWithEof_state hre2
          simp only [Sum.inl.injEq, Prod.mk.injEq, Except.ok.injEq,
            Option.some.injEq] at h
          obtain ⟨hpg, hs2⟩ := h
          rw [← hs2, ← hpg, e2, e1]

theorem rnpfStep_true_not_inr (s s3 : ReaderSt)
    (h : rnpfStep (fun _ => true) s = .inr s3) : False := by
  cases hse : s.ended with
  | true =>
    unfold rnpfStep at h
    rw [hse] at h
    simp at h
  | false =>
    unfold rnpfStep at h
    rw [hse] at h
    simp only [Bool.false_eq_true, if_false] at h
    cases hre1 : readExactWithEof s 24 with
    | none =>
      rw [hre1] at h
      simp at h
    | some p1 =>
      obtain ⟨hb, s1⟩ := p1
      rw [hre1] at h
      dsimp only at h
      cases hdec1 : PageHeaderData.decode hb with
      | error e =>
        rw [hdec1] at h
        simp at h
      | ok h1 =>
        rw [hdec1] at h
        dsimp only at h
        rw [if_neg (by simp)] at h
        cases hre2 : readExactWithEof s1 (sub64 h1.pageSize 24) with
        | none =>
          rw [hre2] at h
          simp at h
        | some p2 =>
          obtain ⟨body, s2'⟩ := p2
          rw [hre2] at h
          simp at h

/-- C10: `read_page_at(offset)` repositions only the underlying byte source:
the state it reads from has `pos = offset` with the tracked logical cursor
unchanged, whereas `seek(offset)` sets both the position and the tracked
cursor to the offset; consequently, when `read_page_at` returns a page, the
final tracked cursor equals the pre-call cursor plus that page's declared
size (wrapping u64 addition) rather than `offset` plus the page size, so the
reported cursor no longer reflects the true stream position. -/
theorem c10_read_page_at_frame (s : ReaderSt) (offset fuel : Nat)
    (pg : PageLazy) (s2 : ReaderSt)
    (hread : readPageAt s offset fuel = (.ok (some pg), s2)) :
    (seekReader s offset).pos = offset ∧ (seekReader s offset).cursor = offset ∧
    ({ s with pos := offset } : ReaderSt).cursor = s.cursor ∧
    s2.cursor = add64 s.cursor pg.header_data.pageSize := by
  refine ⟨rfl, rfl, rfl, ?_⟩
  cases fuel with
  | zero =>
    simp [readPageAt, readNextPageFiltered, loopWith] at hread
  | succ fuel =>
    simp only [readPageAt, readNextPageFiltered, loopWith] at hread
    cases hstp : rnpfStep (fun _ => true) ({ s with pos := offset } : ReaderSt) with
    | inl r =>
      rw [hstp] at hread
      dsimp only at hread
      rw [hread] at hstp
      have hc := rnpfStep_true_some hstp
      exact hc
    | inr s3 =>
      exact (rnpfStep_true_not_inr _ _ hstp).elim

/-- One 256-byte page followed by nothing: the page of `ps5`'s first entry. -/
def stream10 : List Nat := (hdrP 0).encode ++ List.replicate 232 0

/-- A reader over `stream10` whose source sits at the start but whose tracked
cursor is already 77. -/
def s10 : ReaderSt := ⟨stream10, 0, 77, false⟩

set_option maxRecDepth 8000 in
theorem c10_read_page_at_frame_witness :
    (seekReader s10 0).pos = 0 ∧ (seekReader s10 0).cursor = 0 ∧
    ({ s10 with pos := 0 } : ReaderSt).cursor = s10.cursor ∧
    (⟨stream10, 256, 333, false⟩ : ReaderSt).cursor =
      add64 s10.cursor (PageLazy.mk (hdrP 0) (List.replicate 232 0)).header_data.pageSize :=
  c10_read_page_at_frame s10 0 1 ⟨hdrP 0, List.replicate 232 0⟩
    ⟨stream10, 256, 333, false⟩ (by rfl)

end PgStorage
